import Mathlib

/-!
Verification development for the madness-index scoring engine
(src/madness_index.js, with src/unnamed/part_000 as the earlier engine
revision of the same file).

Shallow embedding conventions:
* JavaScript numbers are modelled as exact rationals (ℚ).  Every arithmetic
  operation performed by the engine is +, -, *, /, abs and comparisons, so
  the rational model mirrors the float code except for rounding noise.
* A JS value that may be `null`/`undefined` is an `Option`.
* The global `FIELD_STATS` object is passed explicitly as a `FieldStats`
  value; the global `TEAMS` map is a list of `Team` records looked up by
  name; the interaction accumulator `__INT` is threaded explicitly.
* In-place mutation of a team object is modelled by returning the updated
  record.
-/

namespace Madness

/-- The metric keys of `METRICS_FOR_Z` (madness_index.js line 1423).  The
JS key `to` (turnover rate) is rendered `tov` because `to` is reserved in
Lean; every other key keeps its source name. -/
inductive Metric
  | offeff | defeff | adjem | ts | efg | tempo | epr | tov
  | threepr | threepp | pct_pts_3 | pct_pts_2 | pct_pts_ft
  | opp_3pr | opp_3pp | ftr | opp_ftr | ft_pct
  | nb2 | def_efg | blk
  | spp | otpp | opp_ast_poss
  | orb | drb | scpg
  deriving DecidableEq, Fintype

/-- One entry of `FIELD_STATS`: population mean and standard deviation. -/
structure FieldStat where
  mean : ℚ
  sd : ℚ
  deriving DecidableEq

/-- The `FIELD_STATS` global: per-metric entries plus the derived
`wp` (win percentage) and `P` (schedule-hardness percentile) entries. -/
structure FieldStats where
  stats : Metric → Option FieldStat
  wp : Option FieldStat
  P : Option FieldStat
  deriving DecidableEq

/-- The `team.coreZ` object stored by `computeCoreForTeam`. -/
structure CoreZ where
  offeff : ℚ
  defeff : ℚ
  adjem : ℚ
  ts : ℚ
  efg : ℚ
  def_efg : ℚ
  epr : ℚ
  tov : ℚ
  deriving DecidableEq

/-- An entrant record (madness_index.js lines 1699-1742) together with the
derived fields attached by the scoring layers.  All raw metrics arrive from
`getNum`, hence are `Option ℚ`.  UI-only derived fields (`coreTierPts`,
`coreDetails`, the CIS/FAS identity fields and the cosmetic rating) are not
modelled: no scoring function reads them. -/
structure Team where
  name : String
  seed : Option ℤ := none
  metrics : Metric → Option ℚ
  w : Option ℚ := none
  l : Option ℚ := none
  sos : Option ℚ := none
  -- derived by computeFieldStats
  wp : Option ℚ := none
  P : Option ℚ := none
  -- derived by the per-team layers
  coreZ : Option CoreZ := none
  mibs : Option ℚ := none
  breadthEffHits : Option ℕ := none
  breadthShootHits : Option ℕ := none
  breadthPossHits : Option ℕ := none
  breadthTotalHits : Option ℕ := none
  breadth : Option ℚ := none
  breadthHits : Option ℕ := none
  resumeIndex : Option ℚ := none
  resumeR : Option ℚ := none
  resumeRTier : Option String := none
  mi_base : Option ℚ := none
  profileMarks : List String := []
  -- per-matchup fields written by computeFinalMI
  mi_matchup : Option ℚ := none
  mi_int_raw : Option ℚ := none
  mi_int : Option ℚ := none
  mi_int_rFact : Option ℚ := none
  deriving DecidableEq

/-- `zScore` (line 1464): 0 when the standard deviation is 0, otherwise the
usual standardisation.  The null-value guard of the JS function is handled
at every call site by the `Option` matches. -/
def zScore (val mean sd : ℚ) : ℚ :=
  if sd = 0 then 0 else (val - mean) / sd

/-- `getZ` (line 1485): safe z-score of a metric, with optional inversion
by reflection about the field mean. -/
def getZ (fs : FieldStats) (team : Team) (key : Metric) (inverted : Bool) : ℚ :=
  match fs.stats key with
  | none => 0
  | some st =>
    match team.metrics key with
    | none => 0
    | some v => zScore (if inverted then st.mean * 2 - v else v) st.mean st.sd

/-- `computeMean` (line 1453). -/
def computeMean (arr : List ℚ) : ℚ :=
  if arr = [] then 0 else arr.sum / (arr.length : ℚ)

/-- `Math.sqrt` modelled as the exact rational square root.  It agrees with
the JS square root exactly whenever the argument is the square of a
rational (numerator and denominator of the reduced form both perfect
squares); every concrete dataset used in this development has only
perfect-square variances, so the model is exact there.  Universally
quantified theorems below do not depend on the value this returns. -/
def ratSqrt (q : ℚ) : ℚ :=
  if q < 0 then 0 else (Nat.sqrt q.num.toNat : ℚ) / (Nat.sqrt q.den : ℚ)

/-- `computeSD` (line 1458): population standard deviation (divide by N). -/
def computeSD (arr : List ℚ) (mean : ℚ) : ℚ :=
  if arr = [] then 0
  else ratSqrt ((arr.map (fun x => (x - mean) ^ 2)).sum / (arr.length : ℚ))

/-- The non-null values of one metric across the loaded teams
(`Object.values(TEAMS).map(t => t[key]).filter(...)`, line 1760). -/
def metricValues (teamsL : List Team) (key : Metric) : List ℚ :=
  teamsL.filterMap (fun t => t.metrics key)

/-- One `FIELD_STATS[key]` entry (lines 1759-1767): absent when the metric
has no observed values. -/
def computeFieldStatsEntry (teamsL : List Team) (key : Metric) : Option FieldStat :=
  let vals := metricValues teamsL key
  if vals = [] then none
  else
    let mean := computeMean vals
    some { mean := mean, sd := computeSD vals mean }

/-- The win-percentage pass of `computeFieldStats` (lines 1774-1785):
sets `t.wp = w / (w + l)` when both counts are present with positive sum. -/
def setWp (t : Team) : Team :=
  match t.w, t.l with
  | some w, some l => if w + l > 0 then { t with wp := some (w / (w + l)) } else t
  | _, _ => t

/-- The schedule-hardness pass of `computeFieldStats` (lines 1787-1798):
rescales `sos` so the lowest raw value maps to `P = 1` (toughest). -/
def setP (minSOS maxSOS : ℚ) (t : Team) : Team :=
  match t.sos with
  | some s =>
    if maxSOS > minSOS then { t with P := some (1 - (s - minSOS) / (maxSOS - minSOS)) } else t
  | none => t

/-- `computeFieldStats` (lines 1756-1811): builds the per-metric entries,
attaches `wp`/`P` to the teams, and builds the `wp`/`P` field entries.
Returns the updated team list together with the snapshot. -/
def computeFieldStats (teamsL : List Team) : List Team × FieldStats :=
  let stats := fun key => computeFieldStatsEntry teamsL key
  let teams1 := teamsL.map setWp
  let wpArr := teams1.filterMap (fun t => t.wp)
  let sosArr := teamsL.filterMap (fun t => t.sos)
  let teams2 :=
    match sosArr.min?, sosArr.max? with
    | some minSOS, some maxSOS => teams1.map (setP minSOS maxSOS)
    | _, _ => teams1
  let pArr := teams2.filterMap (fun t => t.P)
  let wpStat :=
    if wpArr = [] then none
    else
      let mean := computeMean wpArr
      some { mean := mean, sd := computeSD wpArr mean : FieldStat }
  let pStat :=
    if pArr = [] then none
    else
      let mean := computeMean pArr
      some { mean := mean, sd := computeSD pArr mean : FieldStat }
  (teams2, { stats := stats, wp := wpStat, P := pStat })

/-! ## Core trait layer (computeCoreForTeam, lines 1814-1967) -/

/-- Weight of each of the two efficiency z-scores (45% lane split in two). -/
def wOffDef : ℚ := 0.45 / 2

/-- Weight of each of the three shooting z-scores (35% lane split in three). -/
def wShoot : ℚ := 0.35 / 3

/-- Weight of each of the two possession z-scores (20% lane split in two). -/
def wPoss : ℚ := 0.20 / 2

/-- Flat stabilizer weight on the efficiency-margin z-score. -/
def wAdjEM : ℚ := 0.10

/-- `computeCoreForTeam` (lines 1814-1967): the 8 oriented core z-scores and
the weighted composite `mibs`.  The `coreTierPts` map and the `coreDetails`
table rows are explain-mode output only (they do not affect `mibs` or any
later layer) and are omitted from the model. -/
def computeCoreForTeam (fs : FieldStats) (team : Team) : Team :=
  let zOff := getZ fs team .offeff false
  let zDef := getZ fs team .defeff true
  let zAdjEM := getZ fs team .adjem false
  let zTS := getZ fs team .ts false
  let zEFG := getZ fs team .efg false
  let zDefEFG := getZ fs team .def_efg true
  let zEPR := getZ fs team .epr false
  let zTO := getZ fs team .tov true
  let mibsCore :=
    wOffDef * zOff +
    wOffDef * zDef +
    wShoot * zTS +
    wShoot * zEFG +
    wShoot * zDefEFG +
    wPoss * zEPR +
    wPoss * zTO
  let mibs := mibsCore + wAdjEM * zAdjEM
  { team with
    coreZ := some
      { offeff := zOff, defeff := zDef, adjem := zAdjEM, ts := zTS,
        efg := zEFG, def_efg := zDefEFG, epr := zEPR, tov := zTO },
    mibs := some mibs }

/-- The hit criterion of `computeBreadthForTeam`: a present z-score of at
least 0.60 (`typeof val === number && val >= 0.60`). -/
def breadthHit : Option ℚ → Bool
  | some v => decide ((0.60 : ℚ) ≤ v)
  | none => false

/-- `computeBreadthForTeam` (lines 1969-2016): three independently scored
groups of core z-scores; `team.coreZ || {}` means a missing `coreZ` yields
zero hits everywhere. -/
def computeBreadthForTeam (team : Team) : Team :=
  let z := team.coreZ
  let effHits : ℕ :=
    (if breadthHit (z.map (fun c => c.offeff)) then 1 else 0) +
    (if breadthHit (z.map (fun c => c.defeff)) then 1 else 0) +
    (if breadthHit (z.map (fun c => c.adjem)) then 1 else 0) +
    (if breadthHit (z.map (fun c => c.def_efg)) then 1 else 0)
  let effBonus : ℚ :=
    if effHits = 1 then 0.10
    else if effHits = 2 then 0.20
    else if effHits = 3 then 0.30
    else if effHits = 4 then 0.40
    else 0
  let shootHits : ℕ :=
    (if breadthHit (z.map (fun c => c.ts)) then 1 else 0) +
    (if breadthHit (z.map (fun c => c.efg)) then 1 else 0)
  let shootBonus : ℚ :=
    if shootHits = 1 then 0.15 else if shootHits = 2 then 0.30 else 0
  let possHits : ℕ :=
    (if breadthHit (z.map (fun c => c.epr)) then 1 else 0) +
    (if breadthHit (z.map (fun c => c.tov)) then 1 else 0)
  let possBonus : ℚ :=
    if possHits = 1 then 0.15 else if possHits = 2 then 0.30 else 0
  let breadth := effBonus + shootBonus + possBonus
  { team with
    breadthEffHits := some effHits,
    breadthShootHits := some shootHits,
    breadthPossHits := some possHits,
    breadthTotalHits := some (effHits + shootHits + possHits),
    breadth := some breadth,
    breadthHits := some (effHits + shootHits + possHits) }

/-- `computeMIBase` (lines 2697-2706): pure sum of the three components,
each defaulting to 0 when absent; stores and returns the value. -/
def computeMIBase (team : Team) : Team × ℚ :=
  let mibs := team.mibs.getD 0
  let breadth := team.breadth.getD 0
  let resumeAdj := team.resumeR.getD 0
  let miBase := mibs + breadth + resumeAdj
  ({ team with mi_base := some miBase }, miBase)

/-- The tier if-chain of `computeResumeContextForTeam` (madness_index.js
lines 2049-2062, the later engine revision with the -0.15 and -0.25
deductions): the `adj`/`tier` pair assigned from the index R. -/
def resumeAdjTier (R : ℚ) : ℚ × String :=
  if R ≥ 1.00 then (0.15, "Elite")
  else if R ≥ 0.80 then (0.10, "Strong")
  else if R ≥ 0.60 then (0.05, "Above Average")
  else if R < -0.80 then (-0.25, "Fragile")
  else if R < 0.00 then (-0.15, "Weak")
  else (0, "Average")

/-- `computeResumeContextForTeam` (madness_index.js lines 2020-2071, the
later engine revision): maps the averaged record/schedule index R into six
tier bands, then refreshes MI_base. -/
def computeResumeContextForTeam (fs : FieldStats) (team : Team) : Team :=
  match fs.wp, fs.P, team.wp, team.P with
  | some stWp, some stP, some wpv, some pv =>
    let z_wp := zScore wpv stWp.mean (if stWp.sd = 0 then 0.00001 else stWp.sd)
    let z_P := zScore pv stP.mean (if stP.sd = 0 then 0.00001 else stP.sd)
    let R := (z_wp + z_P) / 2
    let adjTier := resumeAdjTier R
    let team1 := { team with
      resumeIndex := some R, resumeR := some adjTier.1, resumeRTier := some adjTier.2 }
    (computeMIBase team1).1
  | _, _, _, _ =>
    -- missing résumé data or field stats: neutral résumé, MI_base still set
    let team1 := { team with
      resumeIndex := some 0, resumeR := some 0, resumeRTier := some "Average" }
    (computeMIBase team1).1

namespace EarlyRev

/-- The tier if-chain of the earlier engine revision (src/unnamed/part_000
lines 849-862): identical bands, with the Fragile and Weak deductions at
-0.10 and -0.05. -/
def resumeAdjTier (R : ℚ) : ℚ × String :=
  if R ≥ 1.00 then (0.15, "Elite")
  else if R ≥ 0.80 then (0.10, "Strong")
  else if R ≥ 0.60 then (0.05, "Above Average")
  else if R < -0.80 then (-0.10, "Fragile")
  else if R < 0.00 then (-0.05, "Weak")
  else (0, "Average")

/-- `computeResumeContextForTeam` of the earlier engine revision
(src/unnamed/part_000 lines 820-871). -/
def computeResumeContextForTeam (fs : FieldStats) (team : Team) : Team :=
  match fs.wp, fs.P, team.wp, team.P with
  | some stWp, some stP, some wpv, some pv =>
    let z_wp := zScore wpv stWp.mean (if stWp.sd = 0 then 0.00001 else stWp.sd)
    let z_P := zScore pv stP.mean (if stP.sd = 0 then 0.00001 else stP.sd)
    let R := (z_wp + z_P) / 2
    let adjTier := resumeAdjTier R
    let team1 := { team with
      resumeIndex := some R, resumeR := some adjTier.1, resumeRTier := some adjTier.2 }
    (computeMIBase team1).1
  | _, _, _, _ =>
    let team1 := { team with
      resumeIndex := some 0, resumeR := some 0, resumeRTier := some "Average" }
    (computeMIBase team1).1

end EarlyRev

/-- `computeProfileMarks` (lines 2439-2548): the eight diagnostic rules,
evaluated in source order, each appending at most one mark string. -/
def computeProfileMarks (fs : FieldStats) (team : Team) : Team :=
  let marks0 : List String := []
  -- 1. Offensive Rigidity
  let s2 := (team.metrics .pct_pts_2).getD 0
  let s3 := (team.metrics .pct_pts_3).getD 0
  let sft := (team.metrics .pct_pts_ft).getD 0
  let primaryShare := max s2 (max s3 sft)
  let primary : String := if primaryShare = s2 then "2P" else if primaryShare = s3 then "3P" else "FT"
  let marks1 :=
    if primaryShare ≥ 0.50 then
      let planBZs : ℚ × ℚ :=
        if primary = "2P" then (getZ fs team .threepp false, getZ fs team .ft_pct false)
        else if primary = "3P" then (getZ fs team .nb2 false, getZ fs team .ft_pct false)
        else (getZ fs team .nb2 false, getZ fs team .threepp false)
      let planB := (planBZs.1 + planBZs.2) / 2
      if primaryShare ≥ 0.55 ∧ planB ≤ -0.50 then marks0 ++ ["Offensive Rigidity — Severe"]
      else if planB ≤ -0.25 then marks0 ++ ["Offensive Rigidity — Moderate"]
      else marks0
    else marks0
  -- 2. Unstable Perimeter Profile
  let marks2 :=
    match team.metrics .threepr, team.metrics .threepp with
    | some vol, some acc =>
      let gap := |vol - acc|
      if vol ≥ 0.40 then
        if gap ≥ 0.10 then marks1 ++ ["Unstable Perimeter — Severe"]
        else if gap ≥ 0.06 then marks1 ++ ["Unstable Perimeter — Moderate"]
        else marks1
      else marks1
    | _, _ => marks1
  -- 3. Cold Arc Team
  let marks3 :=
    match fs.stats .threepp, team.metrics .threepp with
    | some _, some _ =>
      let z := getZ fs team .threepp false
      if z < -0.67 then marks2 ++ ["Cold Arc Team — Severe"]
      else if z < 0 ∧ z ≥ -0.67 then marks2 ++ ["Cold Arc Team — Moderate"]
      else marks2
    | _, _ => marks2
  -- 4. Undisciplined Defense
  let marks4 :=
    match fs.stats .spp, fs.stats .otpp, fs.stats .opp_ftr,
          team.metrics .spp, team.metrics .otpp, team.metrics .opp_ftr with
    | some _, some _, some _, some _, some _, some _ =>
      let pressure := getZ fs team .spp false + getZ fs team .otpp false
      let discipline := -(getZ fs team .opp_ftr false)
      let disorder := pressure - discipline
      if disorder ≥ 1.00 then marks3 ++ ["Undisciplined Defense — Severe"]
      else if disorder ≥ 0.50 then marks3 ++ ["Undisciplined Defense — Moderate"]
      else marks3
    | _, _, _, _, _, _ => marks3
  -- 5. Soft Interior
  let marks5 :=
    match fs.stats .def_efg, fs.stats .blk, team.metrics .def_efg, team.metrics .blk with
    | some _, some _, some _, some _ =>
      let resistance := (-(getZ fs team .def_efg false) + getZ fs team .blk false) / 2
      if resistance < -0.75 then marks4 ++ ["Soft Interior — Severe"]
      else if resistance < -0.25 then marks4 ++ ["Soft Interior — Moderate"]
      else marks4
    | _, _, _, _ => marks4
  -- 6. Perimeter Leakage
  let marks6 :=
    match fs.stats .opp_3pr, fs.stats .opp_3pp, team.metrics .opp_3pr, team.metrics .opp_3pp with
    | some _, some _, some _, some _ =>
      let exposure := getZ fs team .opp_3pr false + getZ fs team .opp_3pp false
      if exposure ≥ 1.00 then marks5 ++ ["Perimeter Leakage — Severe"]
      else if exposure ≥ 0.50 then marks5 ++ ["Perimeter Leakage — Moderate"]
      else marks5
    | _, _, _, _ => marks5
  -- 7. Tempo Strain
  let marks7 :=
    match fs.stats .tempo, fs.stats .epr, fs.stats .tov,
          team.metrics .tempo, team.metrics .epr, team.metrics .tov with
    | some _, some _, some _, some _, some _, some _ =>
      let zTempo := getZ fs team .tempo false
      let zEPR := getZ fs team .epr false
      let zInvTO := getZ fs team .tov true
      let tempoExtremity := |zTempo|
      if tempoExtremity < 0.80 then marks6
      else
        let si := (zEPR + zInvTO) / 2
        let vulnerability := max 0 (-si)
        let tempoStrain := tempoExtremity * vulnerability
        if tempoExtremity ≥ 1.20 ∧ vulnerability ≥ 0.75 ∧ tempoStrain ≥ 0.90 then
          marks6 ++ ["Tempo Strain — Severe"]
        else if tempoExtremity ≥ 0.80 ∧ vulnerability ≥ 0.40 ∧ tempoStrain ≥ 0.40 then
          marks6 ++ ["Tempo Strain — Moderate"]
        else marks6
    | _, _, _, _, _, _ => marks6
  -- 8. Turnover Fragility
  let marks8 :=
    match fs.stats .tov, fs.stats .epr, team.metrics .tov, team.metrics .epr with
    | some _, some _, some _, some _ =>
      let stability := (-(getZ fs team .tov false) + getZ fs team .epr false) / 2
      let frag := -stability
      if frag ≥ 1.00 then marks7 ++ ["Turnover Fragility — Severe"]
      else if frag ≥ 0.50 then marks7 ++ ["Turnover Fragility — Moderate"]
      else marks7
    | _, _, _, _ => marks7
  { team with profileMarks := marks8 }

/-- `computeAllTeamLayers` (lines 2552-2559): core, breadth, résumé (which
also sets `mi_base`) and profile marks, in order, for every loaded team. -/
def computeAllTeamLayers (fs : FieldStats) (teamsL : List Team) : List Team :=
  teamsL.map (fun t =>
    computeProfileMarks fs
      (computeResumeContextForTeam fs (computeBreadthForTeam (computeCoreForTeam fs t))))

/-- The scoring phase of `loadDataset` (lines 1750-1753): field statistics,
then all per-team layers.  `computeStaticIdentities` is omitted from the
model: it writes only the CIS/FAS identity fields and the cosmetic rating,
none of which any scoring function reads, and it calls `computeMIBase`
only on teams whose `mi_base` is still unset, which cannot happen after
`computeAllTeamLayers` has run.  `populateTeamDropdowns` is DOM-only. -/
def loadAndCompute (teamsL : List Team) : List Team × FieldStats :=
  let p := computeFieldStats teamsL
  (computeAllTeamLayers p.2 p.1, p.2)

/-! ## Interaction engine (lines 2073-2435) -/

/-- The nine breakdown keys used by the interaction engine.  The JS string
tags are `3pt`, `ft`, `paint`, `to`, `glass`, `resume`, `phys`, `shotq`,
`var`; `3pt` is rendered `t3pt` and `to` is rendered `tov` to form valid
Lean identifiers. -/
inductive ITag
  | t3pt | ft | paint | tov | glass | resume | phys | shotq | var
  deriving DecidableEq, Fintype

/-- The shared interaction accumulator `__INT` (line 2083) and, equally,
the `{a, b, breakdown}` value returned by `computeInteractions`.  The
breakdown object is a total map defaulting to 0, matching
`(__INT.breakdown[tag] || 0)`. -/
structure IntAcc where
  a : ℚ
  b : ℚ
  breakdown : ITag → ℚ
  deriving DecidableEq

/-- The reset accumulator `{ a: 0, b: 0, breakdown: {} }`. -/
def emptyInt : IntAcc := { a := 0, b := 0, breakdown := fun _ => 0 }

/-- `halfMirroredAdjust` (lines 2075-2080). -/
def halfMirroredAdjust (gap : ℚ) : ℚ :=
  let mag := |gap|
  if mag < 0.50 then 0 else if mag < 1.00 then 0.25 else 0.50

/-- `_applyToA` (lines 2086-2091): credit `base` to side A, debit it from
side B, and record it (signed from A) in the breakdown. -/
def _applyToA (acc : IntAcc) (base : ℚ) (tag : ITag) : IntAcc :=
  if base = 0 then acc
  else
    { a := acc.a + base, b := acc.b - base,
      breakdown := fun t => if t = tag then acc.breakdown t + base else acc.breakdown t }

/-- `_applyToB` (lines 2093-2098). -/
def _applyToB (acc : IntAcc) (base : ℚ) (tag : ITag) : IntAcc :=
  if base = 0 then acc
  else
    { a := acc.a - base, b := acc.b + base,
      breakdown := fun t => if t = tag then acc.breakdown t - base else acc.breakdown t }

/-- Category 1, `interaction3PT` (lines 2101-2119). -/
def interaction3PT (fs : FieldStats) (a b : Team) (acc : IntAcc) : IntAcc :=
  let offA := (getZ fs a .threepr false + getZ fs a .threepp false + getZ fs a .pct_pts_3 false) / 3
  let offB := (getZ fs b .threepr false + getZ fs b .threepp false + getZ fs b .pct_pts_3 false) / 3
  let defA := (getZ fs a .opp_3pr true + getZ fs a .opp_3pp true) / 2
  let defB := (getZ fs b .opp_3pr true + getZ fs b .opp_3pp true) / 2
  let gapA := offA - defB
  let gapB := offB - defA
  if |gapA| ≥ |gapB| then
    let base := halfMirroredAdjust gapA
    if gapA > 0 then _applyToA acc base .t3pt else _applyToB acc base .t3pt
  else
    let base := halfMirroredAdjust gapB
    if gapB > 0 then _applyToB acc base .t3pt else _applyToA acc base .t3pt

/-- Category 2, `interactionFT` (lines 2122-2151). -/
def interactionFT (fs : FieldStats) (a b : Team) (acc : IntAcc) : IntAcc :=
  let offFTA := (getZ fs a .ftr false + getZ fs a .ft_pct false + getZ fs a .pct_pts_ft false) / 3
  let offFTB := (getZ fs b .ftr false + getZ fs b .ft_pct false + getZ fs b .pct_pts_ft false) / 3
  let defFTA := getZ fs a .opp_ftr true
  let defFTB := getZ fs b .opp_ftr true
  let gapA := offFTA - defFTB
  let gapB := offFTB - defFTA
  if |gapA| ≥ |gapB| then
    let base := halfMirroredAdjust gapA
    if base ≠ 0 then (if gapA > 0 then _applyToA acc base .ft else _applyToB acc base .ft) else acc
  else
    let base := halfMirroredAdjust gapB
    if base ≠ 0 then (if gapB > 0 then _applyToB acc base .ft else _applyToA acc base .ft) else acc

/-- Category 3, `interactionPaint` (lines 2154-2172). -/
def interactionPaint (fs : FieldStats) (a b : Team) (acc : IntAcc) : IntAcc :=
  let offA := (getZ fs a .pct_pts_2 false + getZ fs a .nb2 false) / 2
  let offB := (getZ fs b .pct_pts_2 false + getZ fs b .nb2 false) / 2
  let rimDefA := (getZ fs a .def_efg true + getZ fs a .blk false) / 2
  let rimDefB := (getZ fs b .def_efg true + getZ fs b .blk false) / 2
  let gapA := offA - rimDefB
  let gapB := offB - rimDefA
  if |gapA| ≥ |gapB| then
    let base := halfMirroredAdjust gapA
    if gapA > 0 then _applyToA acc base .paint else _applyToB acc base .paint
  else
    let base := halfMirroredAdjust gapB
    if gapB > 0 then _applyToB acc base .paint else _applyToA acc base .paint

/-- Category 4, `interactionTO` (lines 2175-2209). -/
def interactionTO (fs : FieldStats) (a b : Team) (acc : IntAcc) : IntAcc :=
  let pressA := (getZ fs a .spp false + getZ fs a .otpp false + getZ fs a .opp_ast_poss true) / 3
  let pressB := (getZ fs b .spp false + getZ fs b .otpp false + getZ fs b .opp_ast_poss true) / 3
  let secA := getZ fs a .tov true
  let secB := getZ fs b .tov true
  let gapA := pressA - secB
  let gapB := pressB - secA
  if |gapA| ≥ |gapB| then
    let base := halfMirroredAdjust gapA
    if base ≠ 0 then (if gapA > 0 then _applyToA acc base .tov else _applyToB acc base .tov) else acc
  else
    let base := halfMirroredAdjust gapB
    if base ≠ 0 then (if gapB > 0 then _applyToB acc base .tov else _applyToA acc base .tov) else acc

/-- Category 5, `interactionGlass` (lines 2212-2229). -/
def interactionGlass (fs : FieldStats) (a b : Team) (acc : IntAcc) : IntAcc :=
  let offGlassA := (getZ fs a .orb false + getZ fs a .scpg false) / 2
  let offGlassB := (getZ fs b .orb false + getZ fs b .scpg false) / 2
  let defGlassA := getZ fs a .drb false
  let defGlassB := getZ fs b .drb false
  let gapA := offGlassA - defGlassB
  let gapB := offGlassB - defGlassA
  if |gapA| ≥ |gapB| then
    let base := halfMirroredAdjust gapA
    if gapA > 0 then _applyToA acc base .glass else _applyToB acc base .glass
  else
    let base := halfMirroredAdjust gapB
    if gapB > 0 then _applyToB acc base .glass else _applyToA acc base .glass

/-- Category 6, `interactionResume` (lines 2232-2246): single scalar gap. -/
def interactionResume (fs : FieldStats) (a b : Team) (acc : IntAcc) : IntAcc :=
  match fs.wp, fs.P, a.wp, b.wp, a.P, b.P with
  | some stWp, some stP, some awp, some bwp, some aP, some bP =>
    let z_wp_a := zScore awp stWp.mean (if stWp.sd = 0 then 0.00001 else stWp.sd)
    let z_P_a := zScore aP stP.mean (if stP.sd = 0 then 0.00001 else stP.sd)
    let idxA := (z_wp_a + z_P_a) / 2
    let z_wp_b := zScore bwp stWp.mean (if stWp.sd = 0 then 0.00001 else stWp.sd)
    let z_P_b := zScore bP stP.mean (if stP.sd = 0 then 0.00001 else stP.sd)
    let idxB := (z_wp_b + z_P_b) / 2
    let gap := idxA - idxB
    let base := halfMirroredAdjust gap
    if gap > 0 then _applyToA acc base .resume
    else if gap < 0 then _applyToB acc base .resume
    else acc
  | _, _, _, _, _, _ => acc

/-- Category 7, `interactionPhysicality` (lines 2249-2291). -/
def interactionPhysicality (fs : FieldStats) (a b : Team) (acc : IntAcc) : IntAcc :=
  let physOffA := (getZ fs a .ftr false + getZ fs a .pct_pts_2 false + getZ fs a .nb2 false) / 3
  let physOffB := (getZ fs b .ftr false + getZ fs b .pct_pts_2 false + getZ fs b .nb2 false) / 3
  let tolDefA := (getZ fs a .blk false + getZ fs a .def_efg true + getZ fs a .opp_ftr true) / 3
  let tolDefB := (getZ fs b .blk false + getZ fs b .def_efg true + getZ fs b .opp_ftr true) / 3
  let gapA := physOffA - tolDefB
  let gapB := physOffB - tolDefA
  if |gapA| ≥ |gapB| then
    let base := halfMirroredAdjust gapA
    if base = 0 then acc
    else if gapA > 0 then _applyToA acc base .phys
    else _applyToB acc base .phys
  else
    let base := halfMirroredAdjust gapB
    if base = 0 then acc
    else if gapB > 0 then _applyToB acc base .phys
    else _applyToA acc base .phys

/-- Category 8, `interactionShotQuality` (lines 2294-2333). -/
def interactionShotQuality (fs : FieldStats) (a b : Team) (acc : IntAcc) : IntAcc :=
  let sqA := (getZ fs a .efg false + getZ fs a .threepr false + getZ fs a .nb2 false) / 3
  let sqB := (getZ fs b .efg false + getZ fs b .threepr false + getZ fs b .nb2 false) / 3
  let sdA := (getZ fs a .def_efg true + getZ fs a .opp_ast_poss true) / 2
  let sdB := (getZ fs b .def_efg true + getZ fs b .opp_ast_poss true) / 2
  let gapA := sqA - sdB
  let gapB := sqB - sdA
  if |gapA| ≥ |gapB| then
    let base := halfMirroredAdjust gapA
    if base = 0 then acc
    else if gapA > 0 then _applyToA acc base .shotq
    else _applyToB acc base .shotq
  else
    let base := halfMirroredAdjust gapB
    if base = 0 then acc
    else if gapB > 0 then _applyToB acc base .shotq
    else _applyToA acc base .shotq

/-- The turnover-fragility helper inside `interactionVariance`
(lines 2338-2343): fragility is the negated stability blend. -/
def getTurnoverFragility (fs : FieldStats) (team : Team) : ℚ :=
  -((-(getZ fs team .tov false) + getZ fs team .epr false) / 2)

/-- The shot-volatility mark bonus inside `interactionVariance`
(lines 2346-2357). -/
def getVarianceMarkBonus (team : Team) : ℚ :=
  let marks := team.profileMarks
  let b1 : ℚ :=
    if marks.contains "Unstable Perimeter — Severe" then 0.10
    else if marks.contains "Unstable Perimeter — Moderate" then 0.05
    else 0
  let b2 : ℚ :=
    if marks.contains "Cold Arc Team — Severe" then 0.10
    else if marks.contains "Cold Arc Team — Moderate" then 0.05
    else 0
  b1 + b2

/-- The Variance Exposure Index inside `interactionVariance`
(lines 2360-2374). -/
def getVEI (fs : FieldStats) (team : Team) : ℚ :=
  0.40 * getZ fs team .threepr false +
  0.20 * getZ fs team .ftr true +
  0.20 * getZ fs team .orb true +
  0.20 * getTurnoverFragility fs team +
  getVarianceMarkBonus team

/-- The Opponent Stabilization Index inside `interactionVariance`
(lines 2377-2384). -/
def getOSI (fs : FieldStats) (team : Team) : ℚ :=
  (getZ fs team .otpp false + getZ fs team .drb false +
   getZ fs team .opp_ftr true + getZ fs team .opp_3pp true) / 4

/-- Category 9, `interactionVariance` (lines 2336-2419): leverage goes to
the side that is not exposed. -/
def interactionVariance (fs : FieldStats) (a b : Team) (acc : IntAcc) : IntAcc :=
  let riskA := getVEI fs a - getOSI fs b
  let riskB := getVEI fs b - getOSI fs a
  if |riskA| ≥ |riskB| then
    let base := halfMirroredAdjust riskA
    if base = 0 then acc
    else if riskA > 0 then _applyToB acc base .var
    else if riskA < 0 then _applyToA acc base .var
    else acc
  else
    let base := halfMirroredAdjust riskB
    if base = 0 then acc
    else if riskB > 0 then _applyToA acc base .var
    else if riskB < 0 then _applyToB acc base .var
    else acc

/-- `computeInteractions` (lines 2421-2435): reset the accumulator, run the
nine categories in order, return `{totalA, totalB, breakdown}`. -/
def computeInteractions (fs : FieldStats) (a b : Team) : IntAcc :=
  let acc0 := emptyInt
  let acc1 := interaction3PT fs a b acc0
  let acc2 := interactionFT fs a b acc1
  let acc3 := interactionPaint fs a b acc2
  let acc4 := interactionTO fs a b acc3
  let acc5 := interactionGlass fs a b acc4
  let acc6 := interactionResume fs a b acc5
  let acc7 := interactionPhysicality fs a b acc6
  let acc8 := interactionShotQuality fs a b acc7
  interactionVariance fs a b acc8

/-! ## Bracket topology resolver (lines 1243-1357) -/

/-- The round codes of `ROUND_ORDER` (line 1306). -/
inductive Round
  | R64 | R32 | S16 | E8 | F4 | Champ
  deriving DecidableEq, Fintype

/-- `ROUND_ORDER.indexOf` (line 1306). -/
def roundIndex : Round → ℕ
  | .R64 => 0
  | .R32 => 1
  | .S16 => 2
  | .E8 => 3
  | .F4 => 4
  | .Champ => 5

/-- The four seed pods of a region (`getSeedPod`, lines 1254-1261). -/
inductive Pod
  | A | B | C | D
  deriving DecidableEq

/-- `R64_PAIRINGS` (lines 1246-1251). -/
def R64_PAIRINGS : List (ℤ × ℤ) :=
  [(1, 16), (8, 9), (5, 12), (4, 13), (6, 11), (3, 14), (7, 10), (2, 15)]

/-- `getSeedPod` (lines 1254-1261). -/
def getSeedPod (s : ℤ) : Option Pod :=
  if s = 1 ∨ s = 16 ∨ s = 8 ∨ s = 9 then some .A
  else if s = 5 ∨ s = 12 ∨ s = 4 ∨ s = 13 then some .B
  else if s = 6 ∨ s = 11 ∨ s = 3 ∨ s = 14 then some .C
  else if s = 7 ∨ s = 10 ∨ s = 2 ∨ s = 15 then some .D
  else none

/-- `getPodHalf` (lines 1264-1268): pods A and B share the top half of a
region, C and D the bottom half.  The null input case is unreachable here
because every caller has already checked the pod. -/
def getPodHalf (p : Pod) : Bool :=
  match p with
  | .A | .B => true
  | .C | .D => false

/-- `isFirstRoundPair` (lines 1271-1277). -/
def isFirstRoundPair (a b : ℤ) : Bool :=
  R64_PAIRINGS.any (fun p => (a = p.1 ∧ b = p.2) ∨ (a = p.2 ∧ b = p.1))

/-- `getIntraRegionRound` (lines 1281-1303).  Seeds are integers here, so
the `Number.isFinite` guard of the source never fires in the model. -/
def getIntraRegionRound (a b : ℤ) : Option Round :=
  if a = b then none
  else
    match getSeedPod a, getSeedPod b with
    | some podA, some podB =>
      if isFirstRoundPair a b then some .R64
      else if podA = podB then some .R32
      else if getPodHalf podA = getPodHalf podB then some .S16
      else some .E8
    | _, _ => none

/-- Insertion step of the round sort. -/
def insertRound (r : Round) : List Round → List Round
  | [] => [r]
  | x :: xs => if roundIndex r ≤ roundIndex x then r :: x :: xs else x :: insertRound r xs

/-- The `Array.from(possible).sort(...)` call of `getPossibleRoundsForSeeds`
(lines 1327-1329), modelled as an insertion sort on `ROUND_ORDER` position. -/
def sortRounds : List Round → List Round
  | [] => []
  | x :: xs => insertRound x (sortRounds xs)

/-- `getPossibleRoundsForSeeds` (lines 1310-1330).  The JS `Set` is a list
here: the intra-region round (one of R64/R32/S16/E8) can never collide with
the two cross-region entries F4 and Champ, so no deduplication is needed. -/
def getPossibleRoundsForSeeds (a b : ℤ) : List Round :=
  let intra := if a ≠ b then (getIntraRegionRound a b).toList else []
  sortRounds (intra ++ [.F4, .Champ])

/-- `isRoundPossibleForSeeds` (lines 1333-1336). -/
def isRoundPossibleForSeeds (a b : ℤ) (roundCode : Round) : Bool :=
  (getPossibleRoundsForSeeds a b).contains roundCode

/-- The descriptor built by `getSeedRoundMeta` (lines 1339-1357). -/
structure SeedMeta where
  seedA : ℤ
  seedB : ℤ
  possible : List Round
  isAllowed : Bool
  earliest : Option Round
  deriving DecidableEq

/-- JS `Number(seed)` on a nullable seed: `Number(null)` is 0. -/
def seedNum (o : Option ℤ) : ℤ := o.getD 0

/-- `getSeedRoundMeta` (lines 1339-1357).  The current round is nullable
(`CURRENT_ROUND` starts as null); a null round is a member of no possible
set.  With integer seeds the `Number.isFinite` guard never fires. -/
def getSeedRoundMeta (sa sb : Option ℤ) (roundCode : Option Round) : SeedMeta :=
  let a := seedNum sa
  let b := seedNum sb
  let possible := getPossibleRoundsForSeeds a b
  { seedA := a, seedB := b, possible := possible,
    isAllowed := match roundCode with
      | some r => possible.contains r
      | none => false,
    earliest := possible.head? }

/-! ## Matchup resolver (lines 2697-2817) -/

/-- `getResumeInteractionFactor` (lines 2710-2729): résumé-tier multiplier
on interaction leverage; a missing tier string falls back to Average, and
an unknown tier string takes the default branch. -/
def getResumeInteractionFactor (team : Team) : ℚ :=
  match team.resumeRTier with
  | some "Elite" => 1.00
  | some "Strong" => 0.95
  | some "Above Average" => 0.90
  | some "Average" => 0.85
  | some "Weak" => 0.70
  | some "Fragile" => 0.50
  | some _ => 0.85
  | none => 0.85

/-- `computeFinalMI` (lines 2733-2755): MI_base (recomputed if absent) plus
the résumé-scaled interaction total; stores the four per-matchup fields on
the team and returns the matchup score. -/
def computeFinalMI (team : Team) (interactionAdj : Option ℚ) : Team × ℚ :=
  let p : Team × ℚ :=
    match team.mi_base with
    | some x => (team, x)
    | none => computeMIBase team
  let team1 := p.1
  let base := p.2
  let intRaw := interactionAdj.getD 0
  let rFactor := getResumeInteractionFactor team1
  let intAdj := intRaw * rFactor
  let mi_matchup := base + intAdj
  ({ team1 with
      mi_matchup := some mi_matchup,
      mi_int_raw := some intRaw,
      mi_int := some intAdj,
      mi_int_rFact := some rFactor }, mi_matchup)

/-- `getTeamByName` (lines 2757-2759).  The `TEAMS` object keyed by unique
team name is modelled as a list searched by name. -/
def getTeamByName (teamsL : List Team) (name : String) : Option Team :=
  teamsL.find? (fun t => t.name = name)

/-- The matchup result object built by `compareTeams` (lines 2781-2791).
`a` and `b` are the team records after `computeFinalMI` has written the
per-matchup fields (the JS result holds the mutated team objects). -/
structure CompareResult where
  a : Team
  b : Team
  miA : ℚ
  miB : ℚ
  diff : ℚ
  predicted : String
  interactions : IntAcc
  round : Option Round
  seedMeta : SeedMeta
  deriving DecidableEq

/-- `compareTeams` (lines 2761-2817): none (the JS function logs an error
and returns undefined, with no scoring performed) when either name
is not in the loaded collection; otherwise interactions, seed topology,
both final scores, the signed differential and the predicted winner with
Push on an exact tie.  The `roleMode` parameter and everything from the
rendering calls onward only drive the DOM and are omitted. -/
def compareTeams (fs : FieldStats) (teamsL : List Team) (currentRound : Option Round)
    (teamAName teamBName : String) : Option CompareResult :=
  match getTeamByName teamsL teamAName, getTeamByName teamsL teamBName with
  | some a, some b =>
    let interactions := computeInteractions fs a b
    let seedMeta := getSeedRoundMeta a.seed b.seed currentRound
    let pa := computeFinalMI a (some interactions.a)
    let pb := computeFinalMI b (some interactions.b)
    let miA := pa.2
    let miB := pb.2
    let diff := miA - miB
    let predicted := if diff > 0 then pa.1.name else if diff < 0 then pb.1.name else "Push"
    some { a := pa.1, b := pb.1, miA := miA, miB := miB, diff := diff,
           predicted := predicted, interactions := interactions,
           round := currentRound, seedMeta := seedMeta }
  | _, _ => none

/-! ## A concrete loaded dataset with two identical entrants

Four entrants, of which X1 and X2 carry identical raw values in every
field; the two fillers G1 and G2 skew the field statistics of the one
populated metric so that the shared profile of X1 and X2 sits one standard
deviation above the field mean.  The percent-of-points-from-two values are
synthetic integers chosen so every mean and standard deviation is exact
(variance 1, hence the modelled square root is the JS one). -/

/-- The raw metrics shared by the two identical entrants. -/
def pairMetrics : Metric → Option ℚ :=
  fun k => if k = .pct_pts_2 then some 11 else none

/-- The raw metrics of the two filler entrants. -/
def fillerMetrics : Metric → Option ℚ :=
  fun k => if k = .pct_pts_2 then some 9 else none

/-- First of the two identical entrants. -/
def teamX1 : Team := { name := "X1", metrics := pairMetrics }

/-- Second of the two identical entrants. -/
def teamX2 : Team := { name := "X2", metrics := pairMetrics }

/-- First filler entrant. -/
def teamG1 : Team := { name := "G1", metrics := fillerMetrics }

/-- Second filler entrant. -/
def teamG2 : Team := { name := "G2", metrics := fillerMetrics }

/-- The loaded dataset: the identical pair plus the two fillers. -/
def cxDataset : List Team := [teamX1, teamX2, teamG1, teamG2]

/-- The result of loading `cxDataset`: derived teams plus field stats. -/
def cxLoaded : List Team × FieldStats := loadAndCompute cxDataset

/-- The field statistics of `cxDataset`, spelled out: the populated metric
has mean 10 and standard deviation 1; everything else is absent. -/
def cxFs : FieldStats :=
  { stats := fun key => if key = .pct_pts_2 then some { mean := 10, sd := 1 } else none,
    wp := none, P := none }

/-- The all-zero core z-score record of every entrant of `cxDataset` (the
populated metric is not one of the eight core metrics). -/
def cxCoreZ : CoreZ :=
  { offeff := 0, defeff := 0, adjem := 0, ts := 0, efg := 0, def_efg := 0, epr := 0, tov := 0 }

/-- The derived layers every entrant of `cxDataset` receives: zero core,
zero breadth, neutral résumé, `mi_base` 0, no profile marks. -/
def cxDerived (t : Team) : Team :=
  { t with
    coreZ := some cxCoreZ, mibs := some 0,
    breadthEffHits := some 0, breadthShootHits := some 0, breadthPossHits := some 0,
    breadthTotalHits := some 0, breadth := some 0, breadthHits := some 0,
    resumeIndex := some 0, resumeR := some 0, resumeRTier := some "Average",
    mi_base := some 0, profileMarks := [] }

/-- A freshly loaded entrant row: identity and raw fields only, every
derived field still unset. -/
def twinTeam (nm : String) (sd : Option ℤ) (m : Metric → Option ℚ)
    (w l sos : Option ℚ) : Team :=
  { name := nm, seed := sd, metrics := m, w := w, l := l, sos := sos }

/-! ## Auxiliary definitions used by the claim statements and witnesses -/

/-- A sample team with layer outputs but no stored `mi_base`, for the C7
witness. -/
def tSampleC7 : Team :=
  { name := "S", metrics := fun _ => none,
    mibs := some 1, breadth := some (1/2), resumeR := some (1/10) }

/-- The sum of a breakdown map over the nine category tags. -/
def bsum (f : ITag → ℚ) : ℚ :=
  f .t3pt + f .ft + f .paint + f .tov + f .glass + f .resume + f .phys + f .shotq + f .var

/-- The accumulator invariant: side A holds the exact negation of side B,
and side A equals the signed breakdown total. -/
def IntAccOk (acc : IntAcc) : Prop :=
  acc.a = -acc.b ∧ acc.a = bsum acc.breakdown

/-- The résumé index R of `computeResumeContextForTeam` (lines 2033-2036):
average of the win-percentage and schedule-percentile z-scores, with the
small nonzero floor on each standard deviation. -/
def resumeRIndex (stWp stP : FieldStat) (wpv pv : ℚ) : ℚ :=
  (zScore wpv stWp.mean (if stWp.sd = 0 then 0.00001 else stWp.sd) +
   zScore pv stP.mean (if stP.sd = 0 then 0.00001 else stP.sd)) / 2

/-- A field snapshot with unit z-scales on the résumé metrics, for the C6
witness. -/
def fsResumeSample : FieldStats :=
  { stats := fun _ => none,
    wp := some { mean := 0, sd := 1 }, P := some { mean := 0, sd := 1 } }

/-- A team whose résumé index lands in the Elite band, for the C6
witness. -/
def tResumeSample : Team :=
  { name := "R", metrics := fun _ => none, wp := some 2, P := some 2 }

/-- An empty field snapshot, for concrete matchup witnesses. -/
def fsSampleEmpty : FieldStats := { stats := fun _ => none, wp := none, P := none }

/-- A loaded entrant with an Elite résumé tier and stored `mi_base`, for
the matchup witnesses. -/
def tSampleA : Team :=
  { name := "A", metrics := fun _ => none, mi_base := some 1, resumeRTier := some "Elite" }

/-- A loaded entrant with a Weak résumé tier and stored `mi_base`, for the
matchup witnesses. -/
def tSampleB : Team :=
  { name := "B", metrics := fun _ => none, mi_base := some 0, resumeRTier := some "Weak" }

/-- A team record with its four per-matchup fields blanked, used to state
that a comparison touches nothing else. -/
def clearMatchup (t : Team) : Team :=
  { t with mi_matchup := none, mi_int_raw := none, mi_int := none, mi_int_rFact := none }

/-! ## Helper lemmas -/

/-- A gap of magnitude below one half produces no adjustment. -/
theorem halfMirrored_small {g : ℚ} (h : |g| < 0.50) : halfMirroredAdjust g = 0 := by
  simp only [halfMirroredAdjust]
  rw [if_pos h]

/-- A gap of magnitude in the middle band produces a quarter point. -/
theorem halfMirrored_mid {g : ℚ} (h1 : 0.50 ≤ |g|) (h2 : |g| < 1.00) :
    halfMirroredAdjust g = 0.25 := by
  simp only [halfMirroredAdjust]
  rw [if_neg (by linarith), if_pos h2]

/-- A gap of magnitude at least one produces half a point. -/
theorem halfMirrored_large {g : ℚ} (h : 1.00 ≤ |g|) : halfMirroredAdjust g = 0.50 := by
  simp only [halfMirroredAdjust]
  rw [if_neg (by linarith), if_neg (by linarith)]

/-! ## C8 -/

/-- C8: `halfMirroredAdjust` is invariant under negation of the gap, is
monotone non-decreasing in the gap magnitude, and takes exactly the three
levels 0 (when the magnitude is below 0.50), 0.25 (magnitude in
[0.50, 1.00)) and 0.50 (magnitude at least 1.00). -/
theorem halfMirroredAdjust_spec :
    (∀ g : ℚ, halfMirroredAdjust (-g) = halfMirroredAdjust g) ∧
    (∀ g1 g2 : ℚ, |g1| ≤ |g2| → halfMirroredAdjust g1 ≤ halfMirroredAdjust g2) ∧
    (∀ g : ℚ,
      (|g| < 0.50 → halfMirroredAdjust g = 0) ∧
      (0.50 ≤ |g| → |g| < 1.00 → halfMirroredAdjust g = 0.25) ∧
      (1.00 ≤ |g| → halfMirroredAdjust g = 0.50)) := by
  refine ⟨?_, ?_, ?_⟩
  · intro g
    simp only [halfMirroredAdjust]
    rw [abs_neg]
  · intro g1 g2 h
    simp only [halfMirroredAdjust]
    split_ifs <;> norm_num <;> linarith
  · intro g
    exact ⟨fun h => halfMirrored_small h,
      fun h1 h2 => halfMirrored_mid h1 h2,
      fun h => halfMirrored_large h⟩

/-- Witness for C8 at concrete gaps: a gap of -0.75 mirrors the gap 0.75,
the monotone step from 0.25 to 0.75, and the three levels attained at
0.25, 0.75 and 2. -/
theorem halfMirroredAdjust_spec_witness :
    halfMirroredAdjust (-0.75) = halfMirroredAdjust 0.75 ∧
    halfMirroredAdjust 0.25 ≤ halfMirroredAdjust 0.75 ∧
    halfMirroredAdjust 0.25 = 0 ∧
    halfMirroredAdjust 0.75 = 0.25 ∧
    halfMirroredAdjust 2 = 0.50 :=
  ⟨halfMirroredAdjust_spec.1 0.75,
   halfMirroredAdjust_spec.2.1 0.25 0.75 (by norm_num [abs_of_pos]),
   (halfMirroredAdjust_spec.2.2 0.25).1 (by norm_num [abs_of_pos]),
   (halfMirroredAdjust_spec.2.2 0.75).2.1 (by norm_num [abs_of_pos]) (by norm_num [abs_of_pos]),
   (halfMirroredAdjust_spec.2.2 2).2.2 (by norm_num [abs_of_pos])⟩

/-! ## C3 -/

/-- C3 counterexample: the eight `mibs` weights of `computeCoreForTeam` sum
to 1.10, not to 1.0 — the three lanes (0.45 + 0.35 + 0.20) already total
1.0 and the flat 0.10 stabilizer weight on the efficiency-margin z-score
comes on top of them. -/
theorem mibs_weights_total_counterexample :
    wOffDef * 2 + wShoot * 3 + wPoss * 2 + wAdjEM = 1.10 ∧
    ¬(wOffDef * 2 + wShoot * 3 + wPoss * 2 + wAdjEM = 1) := by
  norm_num [wOffDef, wShoot, wPoss, wAdjEM]

/-- C3 amended: `mibs` is the weighted sum using 0.45/2 on each of the
offensive and defensive efficiency z-scores, 0.35/3 on each of
true-shooting, effective-FG and opponent effective-FG z-scores, 0.20/2 on
each of the possession-ratio and turnover z-scores, plus a flat 0.10 on
the efficiency-margin z-score; the three lane weights total exactly 1.0,
and together with the flat stabilizer the weights total 1.10. -/
theorem mibs_weights_spec :
    wOffDef = 0.45 / 2 ∧ wShoot = 0.35 / 3 ∧ wPoss = 0.20 / 2 ∧ wAdjEM = 0.10 ∧
    wOffDef * 2 + wShoot * 3 + wPoss * 2 = 1 ∧
    wOffDef * 2 + wShoot * 3 + wPoss * 2 + wAdjEM = 1.10 ∧
    ∀ (fs : FieldStats) (team : Team),
      (computeCoreForTeam fs team).mibs = some
        (wOffDef * getZ fs team .offeff false + wOffDef * getZ fs team .defeff true +
         wShoot * getZ fs team .ts false + wShoot * getZ fs team .efg false +
         wShoot * getZ fs team .def_efg true +
         wPoss * getZ fs team .epr false + wPoss * getZ fs team .tov true +
         wAdjEM * getZ fs team .adjem false) := by
  refine ⟨rfl, rfl, rfl, rfl, by norm_num [wOffDef, wShoot, wPoss],
    by norm_num [wOffDef, wShoot, wPoss, wAdjEM], ?_⟩
  intro fs team
  simp only [computeCoreForTeam]

/-! ## C5 -/

/-- C5: for distinct seeds 1-16 the possible-round set has exactly the
three members intra-region round, F4 and Champ, in canonical round order
(the intra-region round sorts strictly before F4, which sorts before
Champ); for equal seeds it is exactly the two cross-region rounds. -/
theorem possible_rounds_spec :
    ∀ a ∈ Finset.Icc (1 : ℤ) 16, ∀ b ∈ Finset.Icc (1 : ℤ) 16,
      (a ≠ b → (getPossibleRoundsForSeeds a b).length = 3 ∧
        ∃ r : Round, getIntraRegionRound a b = some r ∧
          getPossibleRoundsForSeeds a b = [r, Round.F4, Round.Champ] ∧
          roundIndex r < roundIndex Round.F4 ∧
          roundIndex Round.F4 < roundIndex Round.Champ) ∧
      (a = b → getPossibleRoundsForSeeds a b = [Round.F4, Round.Champ]) := by
  decide

/-- Witness for C5: seed pair (1, 16) meets in R64, F4 or Champ; the equal
pair (3, 3) can only meet in F4 or Champ. -/
theorem possible_rounds_spec_witness :
    getPossibleRoundsForSeeds 3 3 = [Round.F4, Round.Champ] ∧
    (getPossibleRoundsForSeeds 1 16).length = 3 ∧
    (∃ r : Round, getIntraRegionRound 1 16 = some r ∧
      getPossibleRoundsForSeeds 1 16 = [r, Round.F4, Round.Champ]) := by
  refine ⟨(possible_rounds_spec 3 (by decide) 3 (by decide)).2 rfl, ?_, ?_⟩
  · exact ((possible_rounds_spec 1 (by decide) 16 (by decide)).1 (by decide)).1
  · obtain ⟨r, h1, h2, _⟩ := ((possible_rounds_spec 1 (by decide) 16 (by decide)).1 (by decide)).2
    exact ⟨r, h1, h2⟩

/-! ## C7 -/

/-- C7: `mi_base` is exactly `mibs + breadth + resumeAdjustment` with every
missing component contributing 0; recomputing without changing inputs
returns the identical value and leaves the team record unchanged; and a
downstream trigger through `computeFinalMI` on a team without a stored
`mi_base` uses exactly the same recomputed value. -/
theorem mi_base_sum_idempotent :
    ∀ team : Team,
      (computeMIBase team).2 =
        team.mibs.getD 0 + team.breadth.getD 0 + team.resumeR.getD 0 ∧
      ((computeMIBase team).1).mi_base = some ((computeMIBase team).2) ∧
      (computeMIBase (computeMIBase team).1).2 = (computeMIBase team).2 ∧
      (computeMIBase (computeMIBase team).1).1 = (computeMIBase team).1 ∧
      (∀ adj : ℚ, team.mi_base = none →
        (computeFinalMI team (some adj)).2 =
          (computeMIBase team).2 + adj * getResumeInteractionFactor team) := by
  intro team
  refine ⟨rfl, rfl, rfl, ?_, ?_⟩
  · simp [computeMIBase]
  · intro adj h
    simp [computeFinalMI, computeMIBase, h, getResumeInteractionFactor]

/-- Witness for C7 at a concrete team: the recomputed base is the sum of
the three components, and the downstream trigger by `computeFinalMI`
agrees. -/
theorem mi_base_sum_idempotent_witness :
    (computeMIBase tSampleC7).2 =
      tSampleC7.mibs.getD 0 + tSampleC7.breadth.getD 0 + tSampleC7.resumeR.getD 0 ∧
    (computeFinalMI tSampleC7 (some 2)).2 =
      (computeMIBase tSampleC7).2 + 2 * getResumeInteractionFactor tSampleC7 :=
  ⟨(mi_base_sum_idempotent tSampleC7).1,
   (mi_base_sum_idempotent tSampleC7).2.2.2.2 2 rfl⟩

/-! ## C9 -/

/-- C9: comparing identifiers of which at least one is not in the loaded
collection is a hard failure: `compareTeams` produces no matchup result
(the source logs an error and returns undefined without scoring). -/
theorem compareTeams_missing_team
    (fs : FieldStats) (teamsL : List Team) (currentRound : Option Round)
    (na nb : String)
    (h : getTeamByName teamsL na = none ∨ getTeamByName teamsL nb = none) :
    compareTeams fs teamsL currentRound na nb = none := by
  unfold compareTeams
  rcases h with h | h
  · rw [h]
  · rw [h]; cases getTeamByName teamsL na <;> rfl

/-- Witness for C9: comparing against an empty collection yields no
result. -/
theorem compareTeams_missing_team_witness :
    compareTeams { stats := fun _ => none, wp := none, P := none } [] none "A" "B" = none :=
  compareTeams_missing_team _ [] none "A" "B" (Or.inl rfl)

/-! ## C2 -/

theorem applyToA_ok {acc : IntAcc} (base : ℚ) (tag : ITag) (h : IntAccOk acc) :
    IntAccOk (_applyToA acc base tag) := by
  obtain ⟨h1, h2⟩ := h
  unfold IntAccOk _applyToA
  by_cases hb : base = 0
  · rw [if_pos hb]; exact ⟨h1, h2⟩
  · rw [if_neg hb]
    constructor
    · simp only []
      rw [h1]; ring
    · simp only []
      cases tag <;> simp [bsum] <;> rw [h2] <;> simp [bsum] <;> ring

theorem applyToB_ok {acc : IntAcc} (base : ℚ) (tag : ITag) (h : IntAccOk acc) :
    IntAccOk (_applyToB acc base tag) := by
  obtain ⟨h1, h2⟩ := h
  unfold IntAccOk _applyToB
  by_cases hb : base = 0
  · rw [if_pos hb]; exact ⟨h1, h2⟩
  · rw [if_neg hb]
    constructor
    · simp only []
      rw [h1]; ring
    · simp only []
      cases tag <;> simp [bsum] <;> rw [h2] <;> simp [bsum] <;> ring

theorem interaction3PT_ok (fs : FieldStats) (a b : Team) {acc : IntAcc} (h : IntAccOk acc) :
    IntAccOk (interaction3PT fs a b acc) := by
  simp only [interaction3PT]
  split_ifs <;> first | exact applyToA_ok _ _ h | exact applyToB_ok _ _ h

theorem interactionFT_ok (fs : FieldStats) (a b : Team) {acc : IntAcc} (h : IntAccOk acc) :
    IntAccOk (interactionFT fs a b acc) := by
  simp only [interactionFT]
  split_ifs <;> first | exact applyToA_ok _ _ h | exact applyToB_ok _ _ h | exact h

theorem interactionPaint_ok (fs : FieldStats) (a b : Team) {acc : IntAcc} (h : IntAccOk acc) :
    IntAccOk (interactionPaint fs a b acc) := by
  simp only [interactionPaint]
  split_ifs <;> first | exact applyToA_ok _ _ h | exact applyToB_ok _ _ h

theorem interactionTO_ok (fs : FieldStats) (a b : Team) {acc : IntAcc} (h : IntAccOk acc) :
    IntAccOk (interactionTO fs a b acc) := by
  simp only [interactionTO]
  split_ifs <;> first | exact applyToA_ok _ _ h | exact applyToB_ok _ _ h | exact h

theorem interactionGlass_ok (fs : FieldStats) (a b : Team) {acc : IntAcc} (h : IntAccOk acc) :
    IntAccOk (interactionGlass fs a b acc) := by
  simp only [interactionGlass]
  split_ifs <;> first | exact applyToA_ok _ _ h | exact applyToB_ok _ _ h

theorem interactionResume_ok (fs : FieldStats) (a b : Team) {acc : IntAcc} (h : IntAccOk acc) :
    IntAccOk (interactionResume fs a b acc) := by
  simp only [interactionResume]
  split
  · split_ifs <;> first | exact applyToA_ok _ _ h | exact applyToB_ok _ _ h | exact h
  · exact h

theorem interactionPhysicality_ok (fs : FieldStats) (a b : Team) {acc : IntAcc}
    (h : IntAccOk acc) : IntAccOk (interactionPhysicality fs a b acc) := by
  simp only [interactionPhysicality]
  split_ifs <;> first | exact applyToA_ok _ _ h | exact applyToB_ok _ _ h | exact h

theorem interactionShotQuality_ok (fs : FieldStats) (a b : Team) {acc : IntAcc}
    (h : IntAccOk acc) : IntAccOk (interactionShotQuality fs a b acc) := by
  simp only [interactionShotQuality]
  split_ifs <;> first | exact applyToA_ok _ _ h | exact applyToB_ok _ _ h | exact h

theorem interactionVariance_ok (fs : FieldStats) (a b : Team) {acc : IntAcc}
    (h : IntAccOk acc) : IntAccOk (interactionVariance fs a b acc) := by
  simp only [interactionVariance]
  split_ifs <;> first | exact applyToA_ok _ _ h | exact applyToB_ok _ _ h | exact h

/-- C2: for every ordered pair of entrants the interaction engine returns
totals with `totalA` the exact negation of `totalB`; the breakdown records
one signed amount per category, credited to side A and debited from side B
(or conversely for a negative entry), so that side A equals the breakdown
total over the nine categories and side B its exact negation. -/
theorem interaction_totals_mirrored (fs : FieldStats) (a b : Team) :
    (computeInteractions fs a b).a = -((computeInteractions fs a b).b) ∧
    (computeInteractions fs a b).a = bsum ((computeInteractions fs a b).breakdown) ∧
    (computeInteractions fs a b).b = -(bsum ((computeInteractions fs a b).breakdown)) := by
  have h0 : IntAccOk emptyInt := by
    constructor <;> simp [emptyInt, bsum]
  have hfin : IntAccOk (computeInteractions fs a b) := by
    simp only [computeInteractions]
    exact interactionVariance_ok fs a b
      (interactionShotQuality_ok fs a b
        (interactionPhysicality_ok fs a b
          (interactionResume_ok fs a b
            (interactionGlass_ok fs a b
              (interactionTO_ok fs a b
                (interactionPaint_ok fs a b
                  (interactionFT_ok fs a b
                    (interaction3PT_ok fs a b h0))))))))
  obtain ⟨h1, h2⟩ := hfin
  refine ⟨h1, h2, ?_⟩
  rw [← h2]
  linarith

/-! ## C6 -/

/-- C6: with both field snapshots and both entrant values present, the
résumé adjustment follows the six-band mapping of the index R — R at least
1.00 gives +0.15 Elite, R in [0.80, 1.00) gives +0.10 Strong, R in
[0.60, 0.80) gives +0.05 Above Average, R below -0.80 gives the Fragile
deduction (-0.25 in the later revision, -0.10 in the earlier one), R in
[-0.80, 0) gives the Weak deduction (-0.15 later, -0.05 earlier), and R in
[0, 0.60) gives exactly 0.00 Average. -/
theorem resume_tier_bands (fs : FieldStats) (team : Team) (stWp stP : FieldStat)
    (wpv pv : ℚ) (hfsw : fs.wp = some stWp) (hfsp : fs.P = some stP)
    (hw : team.wp = some wpv) (hp : team.P = some pv) :
    (computeResumeContextForTeam fs team).resumeIndex =
      some (resumeRIndex stWp stP wpv pv) ∧
    (EarlyRev.computeResumeContextForTeam fs team).resumeIndex =
      some (resumeRIndex stWp stP wpv pv) ∧
    ∀ R : ℚ, R = resumeRIndex stWp stP wpv pv →
      (R ≥ 1.00 →
        (computeResumeContextForTeam fs team).resumeR = some 0.15 ∧
        (computeResumeContextForTeam fs team).resumeRTier = some "Elite" ∧
        (EarlyRev.computeResumeContextForTeam fs team).resumeR = some 0.15 ∧
        (EarlyRev.computeResumeContextForTeam fs team).resumeRTier = some "Elite") ∧
      (0.80 ≤ R → R < 1.00 →
        (computeResumeContextForTeam fs team).resumeR = some 0.10 ∧
        (computeResumeContextForTeam fs team).resumeRTier = some "Strong" ∧
        (EarlyRev.computeResumeContextForTeam fs team).resumeR = some 0.10 ∧
        (EarlyRev.computeResumeContextForTeam fs team).resumeRTier = some "Strong") ∧
      (0.60 ≤ R → R < 0.80 →
        (computeResumeContextForTeam fs team).resumeR = some 0.05 ∧
        (computeResumeContextForTeam fs team).resumeRTier = some "Above Average" ∧
        (EarlyRev.computeResumeContextForTeam fs team).resumeR = some 0.05 ∧
        (EarlyRev.computeResumeContextForTeam fs team).resumeRTier = some "Above Average") ∧
      (R < -0.80 →
        (computeResumeContextForTeam fs team).resumeR = some (-0.25) ∧
        (computeResumeContextForTeam fs team).resumeRTier = some "Fragile" ∧
        (EarlyRev.computeResumeContextForTeam fs team).resumeR = some (-0.10) ∧
        (EarlyRev.computeResumeContextForTeam fs team).resumeRTier = some "Fragile") ∧
      (-0.80 ≤ R → R < 0 →
        (computeResumeContextForTeam fs team).resumeR = some (-0.15) ∧
        (computeResumeContextForTeam fs team).resumeRTier = some "Weak" ∧
        (EarlyRev.computeResumeContextForTeam fs team).resumeR = some (-0.05) ∧
        (EarlyRev.computeResumeContextForTeam fs team).resumeRTier = some "Weak") ∧
      (0 ≤ R → R < 0.60 →
        (computeResumeContextForTeam fs team).resumeR = some 0 ∧
        (computeResumeContextForTeam fs team).resumeRTier = some "Average" ∧
        (EarlyRev.computeResumeContextForTeam fs team).resumeR = some 0 ∧
        (EarlyRev.computeResumeContextForTeam fs team).resumeRTier = some "Average") := by
  have hidx : (computeResumeContextForTeam fs team).resumeIndex =
      some (resumeRIndex stWp stP wpv pv) := by
    simp only [computeResumeContextForTeam, hfsw, hfsp, hw, hp, computeMIBase, resumeRIndex]
  have hidx' : (EarlyRev.computeResumeContextForTeam fs team).resumeIndex =
      some (resumeRIndex stWp stP wpv pv) := by
    simp only [EarlyRev.computeResumeContextForTeam, hfsw, hfsp, hw, hp, computeMIBase,
      resumeRIndex]
  have hR : (computeResumeContextForTeam fs team).resumeR =
      some (resumeAdjTier (resumeRIndex stWp stP wpv pv)).1 := by
    simp only [computeResumeContextForTeam, hfsw, hfsp, hw, hp, computeMIBase, resumeRIndex]
  have hT : (computeResumeContextForTeam fs team).resumeRTier =
      some (resumeAdjTier (resumeRIndex stWp stP wpv pv)).2 := by
    simp only [computeResumeContextForTeam, hfsw, hfsp, hw, hp, computeMIBase, resumeRIndex]
  have hR' : (EarlyRev.computeResumeContextForTeam fs team).resumeR =
      some (EarlyRev.resumeAdjTier (resumeRIndex stWp stP wpv pv)).1 := by
    simp only [EarlyRev.computeResumeContextForTeam, hfsw, hfsp, hw, hp, computeMIBase,
      resumeRIndex]
  have hT' : (EarlyRev.computeResumeContextForTeam fs team).resumeRTier =
      some (EarlyRev.resumeAdjTier (resumeRIndex stWp stP wpv pv)).2 := by
    simp only [EarlyRev.computeResumeContextForTeam, hfsw, hfsp, hw, hp, computeMIBase,
      resumeRIndex]
  refine ⟨hidx, hidx', ?_⟩
  rintro R rfl
  rw [hR, hT, hR', hT']
  refine ⟨?_, ?_, ?_, ?_, ?_, ?_⟩ <;> intro h1 <;> try intro h2
  all_goals
    simp only [resumeAdjTier, EarlyRev.resumeAdjTier]
  all_goals
    split_ifs <;> first | exact ⟨rfl, rfl, rfl, rfl⟩ | linarith

/-- Witness for C6: a team two standard deviations above the field mean on
both résumé metrics has R = 2 and receives +0.15 Elite in both engine
revisions. -/
theorem resume_tier_bands_witness :
    (computeResumeContextForTeam fsResumeSample tResumeSample).resumeR = some 0.15 ∧
    (computeResumeContextForTeam fsResumeSample tResumeSample).resumeRTier = some "Elite" ∧
    (EarlyRev.computeResumeContextForTeam fsResumeSample tResumeSample).resumeR = some 0.15 ∧
    (EarlyRev.computeResumeContextForTeam fsResumeSample tResumeSample).resumeRTier =
      some "Elite" := by
  have h := resume_tier_bands fsResumeSample tResumeSample
    { mean := 0, sd := 1 } { mean := 0, sd := 1 } 2 2 rfl rfl rfl rfl
  have hR : resumeRIndex { mean := 0, sd := 1 } { mean := 0, sd := 1 } 2 2 = 2 := by
    norm_num [resumeRIndex, zScore]
  exact (h.2.2 2 hR.symm).1 (by norm_num)

/-! ## C4 -/

/-- C4: for two entrants present in the loaded collection, the matchup
resolver scores each side as its `mi_base` plus its interaction total
scaled by that side's résumé-tier multiplier (Elite 1.00, Strong 0.95,
Above Average 0.90, Average 0.85, Weak 0.70, Fragile 0.50), reports the
margin as the signed difference `miA - miB`, declares the winner as the
side with the strictly greater final score, and reports the explicit
Push outcome when the two final scores are equal. -/
theorem compareTeams_final_scores
    (fs : FieldStats) (teamsL : List Team) (currentRound : Option Round)
    (na nb : String) (a b : Team) (mA mB : ℚ)
    (ha : getTeamByName teamsL na = some a) (hb : getTeamByName teamsL nb = some b)
    (hmA : a.mi_base = some mA) (hmB : b.mi_base = some mB) :
    ∃ res : CompareResult, compareTeams fs teamsL currentRound na nb = some res ∧
      ((a.resumeRTier = some "Elite" → getResumeInteractionFactor a = 1.00) ∧
       (a.resumeRTier = some "Strong" → getResumeInteractionFactor a = 0.95) ∧
       (a.resumeRTier = some "Above Average" → getResumeInteractionFactor a = 0.90) ∧
       (a.resumeRTier = some "Average" → getResumeInteractionFactor a = 0.85) ∧
       (a.resumeRTier = some "Weak" → getResumeInteractionFactor a = 0.70) ∧
       (a.resumeRTier = some "Fragile" → getResumeInteractionFactor a = 0.50)) ∧
      res.miA = mA + (computeInteractions fs a b).a * getResumeInteractionFactor a ∧
      res.miB = mB + (computeInteractions fs a b).b * getResumeInteractionFactor b ∧
      res.diff = res.miA - res.miB ∧
      (res.miA > res.miB → res.predicted = a.name) ∧
      (res.miB > res.miA → res.predicted = b.name) ∧
      (res.miA = res.miB → res.predicted = "Push") := by
  unfold compareTeams
  rw [ha, hb]
  simp only [computeFinalMI, hmA, hmB]
  refine ⟨_, rfl, ?_, ?_, ?_, ?_, ?_, ?_, ?_⟩
  · refine ⟨?_, ?_, ?_, ?_, ?_, ?_⟩ <;> intro h <;>
      simp [getResumeInteractionFactor, h]
  · rfl
  · rfl
  · rfl
  · intro h
    dsimp only at h ⊢
    split_ifs with h1 h2 <;> first | rfl | linarith
  · intro h
    dsimp only at h ⊢
    split_ifs with h1 h2 <;> first | rfl | linarith
  · intro h
    dsimp only at h ⊢
    split_ifs with h1 h2 <;> first | rfl | linarith

/-- Witness for C4 at a concrete two-entrant collection: the Elite side is
scaled by 1.00, the Weak side by 0.70, and the margin is the signed
difference of the final scores. -/
theorem compareTeams_final_scores_witness :
    ∃ res : CompareResult,
      compareTeams fsSampleEmpty [tSampleA, tSampleB] none "A" "B" = some res ∧
      res.miA = 1 + (computeInteractions fsSampleEmpty tSampleA tSampleB).a * 1.00 ∧
      res.miB = 0 + (computeInteractions fsSampleEmpty tSampleA tSampleB).b * 0.70 ∧
      res.diff = res.miA - res.miB := by
  obtain ⟨res, hres, hfac, hmiA, hmiB, hdiff, _, _, _⟩ :=
    compareTeams_final_scores fsSampleEmpty [tSampleA, tSampleB] none "A" "B"
      tSampleA tSampleB 1 0 rfl rfl rfl rfl
  refine ⟨res, hres, ?_, ?_, hdiff⟩
  · rw [hmiA, hfac.1 rfl]
  · rw [hmiB, show getResumeInteractionFactor tSampleB = 0.70 from rfl]

/-! ## C10 -/

/-- C10: when both entrants are found and their `mi_base` values are
already stored, `compareTeams` writes only the per-matchup fields
(`mi_matchup`, `mi_int_raw`, `mi_int`, `mi_int_rFact`) on each side; the
baseline-derived fields `coreZ`, `mibs`, `breadth`, `resumeR`,
`resumeRTier` and `mi_base` are identical before and after. -/
theorem compareTeams_frame
    (fs : FieldStats) (teamsL : List Team) (currentRound : Option Round)
    (na nb : String) (a b : Team) (mA mB : ℚ)
    (ha : getTeamByName teamsL na = some a) (hb : getTeamByName teamsL nb = some b)
    (hmA : a.mi_base = some mA) (hmB : b.mi_base = some mB) :
    ∃ res : CompareResult, compareTeams fs teamsL currentRound na nb = some res ∧
      clearMatchup res.a = clearMatchup a ∧
      clearMatchup res.b = clearMatchup b ∧
      res.a.mi_matchup.isSome ∧ res.a.mi_int_raw.isSome ∧
      res.a.mi_int.isSome ∧ res.a.mi_int_rFact.isSome ∧
      res.b.mi_matchup.isSome ∧ res.b.mi_int_raw.isSome ∧
      res.b.mi_int.isSome ∧ res.b.mi_int_rFact.isSome ∧
      res.a.coreZ = a.coreZ ∧ res.a.mibs = a.mibs ∧ res.a.breadth = a.breadth ∧
      res.a.resumeR = a.resumeR ∧ res.a.resumeRTier = a.resumeRTier ∧
      res.a.mi_base = a.mi_base ∧
      res.b.coreZ = b.coreZ ∧ res.b.mibs = b.mibs ∧ res.b.breadth = b.breadth ∧
      res.b.resumeR = b.resumeR ∧ res.b.resumeRTier = b.resumeRTier ∧
      res.b.mi_base = b.mi_base := by
  unfold compareTeams
  rw [ha, hb]
  simp only [computeFinalMI, hmA, hmB]
  refine ⟨_, rfl, ?_, ?_, rfl, rfl, rfl, rfl, rfl, rfl, rfl, rfl,
    rfl, rfl, rfl, rfl, rfl, ?_, rfl, rfl, rfl, rfl, rfl, ?_⟩
  · simp only [clearMatchup]
    rw [hmA]
  · simp only [clearMatchup]
    rw [hmB]
  · rfl
  · rfl

/-- Witness for C10 at a concrete two-entrant collection: the comparison
leaves the stored `mi_base` and résumé tier of both sides unchanged. -/
theorem compareTeams_frame_witness :
    ∃ res : CompareResult,
      compareTeams fsSampleEmpty [tSampleA, tSampleB] none "A" "B" = some res ∧
      clearMatchup res.a = clearMatchup tSampleA ∧
      res.a.mi_base = tSampleA.mi_base ∧ res.b.resumeRTier = tSampleB.resumeRTier := by
  obtain ⟨res, hres, hca, _, _, _, _, _, _, _, _, _, _, _, _, _, _,
      hbase, _, _, _, _, htier, _⟩ :=
    compareTeams_frame fsSampleEmpty [tSampleA, tSampleB] none "A" "B"
      tSampleA tSampleB 1 0 rfl rfl rfl rfl
  exact ⟨res, hres, hca, hbase, htier⟩

/-! ## C1: evaluation of the concrete dataset -/

theorem cxTeams_eq : (computeFieldStats cxDataset).1 = cxDataset := rfl

theorem metricValues_cx (key : Metric) :
    metricValues cxDataset key = if key = .pct_pts_2 then [11, 11, 9, 9] else [] := by
  by_cases hk : key = .pct_pts_2 <;>
    simp [metricValues, cxDataset, teamX1, teamX2, teamG1, teamG2, pairMetrics,
      fillerMetrics, hk]

theorem cxSD_eq : computeSD [(11 : ℚ), 11, 9, 9] 10 = 1 := by
  have h1 : (([(11 : ℚ), 11, 9, 9].map (fun x => (x - 10) ^ 2)).sum /
      (([(11 : ℚ), 11, 9, 9].length : ℕ) : ℚ)) = 1 := by
    norm_num
  rw [computeSD, if_neg (List.cons_ne_nil _ _), h1, ratSqrt, if_neg (by norm_num),
    Rat.num_one, Rat.den_one]
  norm_num

theorem cxMean_eq : computeMean [(11 : ℚ), 11, 9, 9] = 10 := by
  unfold computeMean
  rw [if_neg (List.cons_ne_nil _ _)]
  norm_num

theorem entry_cx (key : Metric) : computeFieldStatsEntry cxDataset key = cxFs.stats key := by
  by_cases hk : key = .pct_pts_2
  · subst hk
    have hv2 : metricValues cxDataset .pct_pts_2 = [11, 11, 9, 9] := by
      rw [metricValues_cx]
      simp
    simp only [computeFieldStatsEntry, hv2]
    rw [if_neg (List.cons_ne_nil _ _), cxMean_eq, cxSD_eq]
    simp [cxFs]
  · simp [computeFieldStatsEntry, metricValues_cx, hk, cxFs]

theorem cxStats_eq : (computeFieldStats cxDataset).2 = cxFs := by
  have hL : (computeFieldStats cxDataset).2 =
      { stats := fun key => computeFieldStatsEntry cxDataset key, wp := none, P := none } := rfl
  rw [hL]
  have hs : (fun key => computeFieldStatsEntry cxDataset key) = cxFs.stats :=
    funext entry_cx
  rw [hs]
  rfl

theorem core_cx (t : Team) :
    computeCoreForTeam cxFs t = { t with coreZ := some cxCoreZ, mibs := some 0 } := by
  simp [computeCoreForTeam, getZ, cxFs, cxCoreZ, wOffDef, wShoot, wPoss, wAdjEM]

theorem breadth_cx (t : Team) (h : t.coreZ = some cxCoreZ) :
    computeBreadthForTeam t =
      { t with breadthEffHits := some 0, breadthShootHits := some 0,
               breadthPossHits := some 0, breadthTotalHits := some 0,
               breadth := some 0, breadthHits := some 0 } := by
  norm_num [computeBreadthForTeam, h, breadthHit, cxCoreZ]

theorem resume_cx (t : Team) (hm : t.mibs = some 0) (hb : t.breadth = some 0) :
    computeResumeContextForTeam cxFs t =
      { t with resumeIndex := some 0, resumeR := some 0, resumeRTier := some "Average",
               mi_base := some 0 } := by
  simp [computeResumeContextForTeam, cxFs, computeMIBase, hm, hb]

theorem marks_cx (t : Team) (v : ℚ)
    (hm : t.metrics = fun k => if k = .pct_pts_2 then some v else none)
    (hv : 0.55 ≤ v) :
    computeProfileMarks cxFs t = { t with profileMarks := [] } := by
  simp only [computeProfileMarks, hm, cxFs]
  simp only [reduceCtorEq, reduceIte]
  norm_num [getZ, zScore, max_def,
    show ¬(v ≤ 0) from by linarith, show (0.50 : ℚ) ≤ v from by linarith]
  intro hv2
  have h3 : t.metrics Metric.threepp = none := by
    rw [hm]
    simp
  have h4 : t.metrics Metric.ft_pct = none := by
    rw [hm]
    simp
  simp only [h3, h4, reduceCtorEq, reduceIte]
  norm_num

theorem pipe1_cx (t : Team) :
    computeBreadthForTeam (computeCoreForTeam cxFs t) =
      { t with coreZ := some cxCoreZ, mibs := some 0,
               breadthEffHits := some 0, breadthShootHits := some 0,
               breadthPossHits := some 0, breadthTotalHits := some 0,
               breadth := some 0, breadthHits := some 0 } := by
  rw [core_cx]
  exact breadth_cx _ rfl

theorem pipe2_cx (t : Team) :
    computeResumeContextForTeam cxFs (computeBreadthForTeam (computeCoreForTeam cxFs t)) =
      { t with coreZ := some cxCoreZ, mibs := some 0,
               breadthEffHits := some 0, breadthShootHits := some 0,
               breadthPossHits := some 0, breadthTotalHits := some 0,
               breadth := some 0, breadthHits := some 0,
               resumeIndex := some 0, resumeR := some 0, resumeRTier := some "Average",
               mi_base := some 0 } := by
  rw [pipe1_cx]
  exact resume_cx _ rfl rfl

theorem pipe_cx (t : Team) (v : ℚ)
    (hm : t.metrics = fun k => if k = .pct_pts_2 then some v else none)
    (hv : 0.55 ≤ v) :
    computeProfileMarks cxFs
      (computeResumeContextForTeam cxFs (computeBreadthForTeam (computeCoreForTeam cxFs t)))
      = cxDerived t := by
  rw [pipe2_cx]
  exact marks_cx _ v hm hv

theorem cxLoaded_eq :
    cxLoaded = ([cxDerived teamX1, cxDerived teamX2, cxDerived teamG1, cxDerived teamG2],
      cxFs) := by
  have h1 : cxLoaded =
      (computeAllTeamLayers (computeFieldStats cxDataset).2 (computeFieldStats cxDataset).1,
       (computeFieldStats cxDataset).2) := rfl
  rw [h1, cxStats_eq, cxTeams_eq]
  have h2 : computeAllTeamLayers cxFs cxDataset =
      [cxDerived teamX1, cxDerived teamX2, cxDerived teamG1, cxDerived teamG2] := by
    simp only [computeAllTeamLayers, cxDataset, List.map]
    rw [pipe_cx teamX1 11 rfl (by norm_num), pipe_cx teamX2 11 rfl (by norm_num),
      pipe_cx teamG1 9 rfl (by norm_num), pipe_cx teamG2 9 rfl (by norm_num)]
  rw [h2]

theorem getZ_cx1 (key : Metric) (inv : Bool) :
    getZ cxFs (cxDerived teamX1) key inv =
      if key = .pct_pts_2 then (if inv then -1 else 1) else 0 := by
  have hm : (cxDerived teamX1).metrics = pairMetrics := rfl
  by_cases hk : key = .pct_pts_2
  · subst hk
    cases inv <;> simp [getZ, cxFs, hm, pairMetrics, zScore] <;> norm_num
  · simp [getZ, cxFs, hk]

theorem getZ_cx2 (key : Metric) (inv : Bool) :
    getZ cxFs (cxDerived teamX2) key inv =
      if key = .pct_pts_2 then (if inv then -1 else 1) else 0 := by
  have hm : (cxDerived teamX2).metrics = pairMetrics := rfl
  by_cases hk : key = .pct_pts_2
  · subst hk
    cases inv <;> simp [getZ, cxFs, hm, pairMetrics, zScore] <;> norm_num
  · simp [getZ, cxFs, hk]

theorem halfMirrored_zero : halfMirroredAdjust (0 : ℚ) = 0 :=
  halfMirrored_small (by rw [abs_zero]; norm_num)

theorem halfMirrored_half : halfMirroredAdjust ((2 : ℚ)⁻¹) = 4⁻¹ := by
  have h := halfMirrored_mid (g := (2 : ℚ)⁻¹)
    (by rw [abs_of_pos] <;> norm_num) (by rw [abs_of_pos] <;> norm_num)
  rw [h]
  norm_num

theorem halfMirrored_third : halfMirroredAdjust ((3 : ℚ)⁻¹) = 0 :=
  halfMirrored_small (by rw [abs_of_pos] <;> norm_num)

theorem int3PT_cx (acc : IntAcc) :
    interaction3PT cxFs (cxDerived teamX1) (cxDerived teamX2) acc = acc := by
  simp [interaction3PT, getZ_cx1, getZ_cx2, halfMirrored_zero, _applyToB]

theorem intFT_cx (acc : IntAcc) :
    interactionFT cxFs (cxDerived teamX1) (cxDerived teamX2) acc = acc := by
  simp [interactionFT, getZ_cx1, getZ_cx2, halfMirrored_zero]

theorem intPaint_cx (acc : IntAcc) :
    interactionPaint cxFs (cxDerived teamX1) (cxDerived teamX2) acc =
      _applyToA acc (1 / 4) .paint := by
  simp [interactionPaint, getZ_cx1, getZ_cx2]
  rw [halfMirrored_half]

theorem intTO_cx (acc : IntAcc) :
    interactionTO cxFs (cxDerived teamX1) (cxDerived teamX2) acc = acc := by
  simp [interactionTO, getZ_cx1, getZ_cx2, halfMirrored_zero]

theorem intGlass_cx (acc : IntAcc) :
    interactionGlass cxFs (cxDerived teamX1) (cxDerived teamX2) acc = acc := by
  simp [interactionGlass, getZ_cx1, getZ_cx2, halfMirrored_zero, _applyToB]

theorem intResume_cx (acc : IntAcc) :
    interactionResume cxFs (cxDerived teamX1) (cxDerived teamX2) acc = acc := by
  simp [interactionResume, cxFs]

theorem intPhys_cx (acc : IntAcc) :
    interactionPhysicality cxFs (cxDerived teamX1) (cxDerived teamX2) acc = acc := by
  simp [interactionPhysicality, getZ_cx1, getZ_cx2]
  intro h
  exact absurd halfMirrored_third h

theorem intShotQ_cx (acc : IntAcc) :
    interactionShotQuality cxFs (cxDerived teamX1) (cxDerived teamX2) acc = acc := by
  simp [interactionShotQuality, getZ_cx1, getZ_cx2, halfMirrored_zero]

theorem intVar_cx (acc : IntAcc) :
    interactionVariance cxFs (cxDerived teamX1) (cxDerived teamX2) acc = acc := by
  have hp1 : (cxDerived teamX1).profileMarks = [] := rfl
  have hp2 : (cxDerived teamX2).profileMarks = [] := rfl
  simp [interactionVariance, getVEI, getOSI, getTurnoverFragility,
    getVarianceMarkBonus, getZ_cx1, getZ_cx2, hp1, hp2, halfMirrored_zero]

theorem cxInteractions :
    computeInteractions cxFs (cxDerived teamX1) (cxDerived teamX2) =
      _applyToA emptyInt (1 / 4) .paint := by
  simp only [computeInteractions]
  rw [int3PT_cx, intFT_cx, intPaint_cx, intTO_cx, intGlass_cx, intResume_cx,
    intPhys_cx, intShotQ_cx, intVar_cx]

/-! ## C1 -/

/-- C1 counterexample: in the loaded four-entrant dataset `cxDataset`, the
entrants X1 and X2 carry identical raw values in every field, yet the
comparison does not resolve all nine interaction categories to 0: the
Paint Presence category awards 0.25 to X1 (the shared profile has a
one-standard-deviation offense-versus-resistance gap of 0.5, which is not
below the half-mirror threshold), and the comparison result is the winner
X1, not the tie outcome Push. -/
theorem identical_entrants_counterexample :
    teamX1.metrics = teamX2.metrics ∧ teamX1.seed = teamX2.seed ∧
    teamX1.w = teamX2.w ∧ teamX1.l = teamX2.l ∧ teamX1.sos = teamX2.sos ∧
    teamX1.name ≠ teamX2.name ∧
    ∃ res : CompareResult,
      compareTeams cxLoaded.2 cxLoaded.1 none "X1" "X2" = some res ∧
      res.interactions.breakdown .paint = 1 / 4 ∧
      res.interactions.a = 1 / 4 ∧
      res.interactions.b = -(1 / 4) ∧
      res.miA = 17 / 80 ∧
      res.miB = -(17 / 80) ∧
      res.diff = 17 / 40 ∧
      res.predicted = "X1" ∧
      res.predicted ≠ "Push" := by
  have hf : cxLoaded.2 = cxFs := congrArg Prod.snd cxLoaded_eq
  have ht : cxLoaded.1 =
      [cxDerived teamX1, cxDerived teamX2, cxDerived teamG1, cxDerived teamG2] :=
    congrArg Prod.fst cxLoaded_eq
  have hl1 : getTeamByName
      [cxDerived teamX1, cxDerived teamX2, cxDerived teamG1, cxDerived teamG2] "X1" =
      some (cxDerived teamX1) := by
    simp [getTeamByName, cxDerived, teamX1]
  have hl2 : getTeamByName
      [cxDerived teamX1, cxDerived teamX2, cxDerived teamG1, cxDerived teamG2] "X2" =
      some (cxDerived teamX2) := by
    simp [getTeamByName, cxDerived, teamX1, teamX2]
  have ha : (_applyToA emptyInt ((1 : ℚ) / 4) ITag.paint).a = 1 / 4 := by
    norm_num [_applyToA, emptyInt]
  have hb : (_applyToA emptyInt ((1 : ℚ) / 4) ITag.paint).b = -(1 / 4) := by
    norm_num [_applyToA, emptyInt]
  have hbr : (_applyToA emptyInt ((1 : ℚ) / 4) ITag.paint).breakdown ITag.paint = 1 / 4 := by
    norm_num [_applyToA, emptyInt]
  have hmb1 : (cxDerived teamX1).mi_base = some 0 := rfl
  have hmb2 : (cxDerived teamX2).mi_base = some 0 := rfl
  have hfac1 : getResumeInteractionFactor (cxDerived teamX1) = 0.85 := rfl
  have hfac2 : getResumeInteractionFactor (cxDerived teamX2) = 0.85 := rfl
  have hfA : (computeFinalMI (cxDerived teamX1) (some ((1 : ℚ) / 4))).2 = 17 / 80 := by
    simp only [computeFinalMI, hmb1]
    norm_num [hfac1]
  have hfB : (computeFinalMI (cxDerived teamX2) (some (-((1 : ℚ) / 4)))).2 = -(17 / 80) := by
    simp only [computeFinalMI, hmb2]
    norm_num [hfac2]
  refine ⟨rfl, rfl, rfl, rfl, rfl, by simp [teamX1, teamX2], ?_⟩
  rw [hf, ht]
  unfold compareTeams
  rw [hl1, hl2]
  refine ⟨_, rfl, ?_, ?_, ?_, ?_, ?_, ?_, ?_, ?_⟩
  · show (computeInteractions cxFs (cxDerived teamX1) (cxDerived teamX2)).breakdown
      ITag.paint = 1 / 4
    rw [cxInteractions]
    exact hbr
  · show (computeInteractions cxFs (cxDerived teamX1) (cxDerived teamX2)).a = 1 / 4
    rw [cxInteractions]
    exact ha
  · show (computeInteractions cxFs (cxDerived teamX1) (cxDerived teamX2)).b = -(1 / 4)
    rw [cxInteractions]
    exact hb
  · show (computeFinalMI (cxDerived teamX1)
      (some (computeInteractions cxFs (cxDerived teamX1) (cxDerived teamX2)).a)).2 = 17 / 80
    rw [cxInteractions, ha]
    exact hfA
  · show (computeFinalMI (cxDerived teamX2)
      (some (computeInteractions cxFs (cxDerived teamX1) (cxDerived teamX2)).b)).2 = -(17 / 80)
    rw [cxInteractions, hb]
    exact hfB
  · show (computeFinalMI (cxDerived teamX1)
        (some (computeInteractions cxFs (cxDerived teamX1) (cxDerived teamX2)).a)).2 -
      (computeFinalMI (cxDerived teamX2)
        (some (computeInteractions cxFs (cxDerived teamX1) (cxDerived teamX2)).b)).2 =
      17 / 40
    rw [cxInteractions, ha, hb, hfA, hfB]
    norm_num
  · show (if _ > _ then _ else if _ < _ then _ else _) = "X1"
    rw [cxInteractions, ha, hb, hfA, hfB]
    rw [if_pos (by norm_num)]
    simp [computeFinalMI, hmb1, cxDerived, teamX1]
  · show (if _ > _ then _ else if _ < _ then _ else _) ≠ "Push"
    rw [cxInteractions, ha, hb, hfA, hfB]
    rw [if_pos (by norm_num)]
    simp [computeFinalMI, hmb1, cxDerived, teamX1]

/-! ## C1: a two-entrant field of identical entrants compares to Push -/

theorem ratSqrt_zero : ratSqrt 0 = 0 := by
  rw [ratSqrt, if_neg (by norm_num), Rat.num_zero, Rat.den_zero]
  norm_num

theorem computeMean_pair (v : ℚ) : computeMean [v, v] = v := by
  unfold computeMean
  rw [if_neg (List.cons_ne_nil _ _)]
  simp

theorem computeSD_pair (v : ℚ) : computeSD [v, v] v = 0 := by
  unfold computeSD
  rw [if_neg (List.cons_ne_nil _ _)]
  simp [ratSqrt_zero]

theorem entry_twin (ta tb : Team) (hm : tb.metrics = ta.metrics) (key : Metric) :
    computeFieldStatsEntry [ta, tb] key =
      (ta.metrics key).map (fun v => { mean := v, sd := 0 : FieldStat }) := by
  cases hmk : ta.metrics key with
  | none =>
    simp [computeFieldStatsEntry, metricValues, hm, hmk]
  | some v =>
    have hvals : metricValues [ta, tb] key = [v, v] := by
      simp [metricValues, hm, hmk]
    simp only [computeFieldStatsEntry, hvals]
    rw [if_neg (List.cons_ne_nil _ _), computeMean_pair, computeSD_pair]
    rfl

theorem getZ_sd_zero (fs : FieldStats)
    (h : ∀ key st, fs.stats key = some st → st.sd = 0)
    (t : Team) (key : Metric) (inv : Bool) : getZ fs t key inv = 0 := by
  rcases hk : fs.stats key with _ | st
  · simp [getZ, hk]
  · rcases hv : t.metrics key with _ | v
    · simp [getZ, hk, hv]
    · simp [getZ, hk, hv, zScore, h key st hk]

theorem setWp_name (t : Team) : (setWp t).name = t.name := by
  unfold setWp
  split
  · split <;> rfl
  · rfl

theorem setWp_P (t : Team) : (setWp t).P = t.P := by
  unfold setWp
  split
  · split <;> rfl
  · rfl

theorem setWp_sos (t : Team) : (setWp t).sos = t.sos := by
  unfold setWp
  split
  · split <;> rfl
  · rfl

theorem setP_name (mn mx : ℚ) (t : Team) : (setP mn mx t).name = t.name := by
  unfold setP
  split
  · split <;> rfl
  · rfl

theorem fieldStats_two (ta tb : Team) :
    ∃ u1 u2, (computeFieldStats [ta, tb]).1 = [u1, u2] ∧
      u1.name = ta.name ∧ u2.name = tb.name := by
  simp only [computeFieldStats, List.map]
  rcases hmn : (List.filterMap (fun t => t.sos) [ta, tb]).min? with _ | mn <;>
    rcases hmx : (List.filterMap (fun t => t.sos) [ta, tb]).max? with _ | mx <;>
      simp only [hmn, hmx]
  · exact ⟨_, _, rfl, setWp_name ta, setWp_name tb⟩
  · exact ⟨_, _, rfl, setWp_name ta, setWp_name tb⟩
  · exact ⟨_, _, rfl, setWp_name ta, setWp_name tb⟩
  · exact ⟨_, _, rfl, by rw [setP_name, setWp_name], by rw [setP_name, setWp_name]⟩

theorem fieldStats_P_two (ta tb : Team) (hsos : tb.sos = ta.sos)
    (hPa : ta.P = none) (hPb : tb.P = none) :
    (computeFieldStats [ta, tb]).2.P = none := by
  rcases hs : ta.sos with _ | sv
  · simp [computeFieldStats, hsos, hs, setWp_P, hPa, hPb]
  · simp only [computeFieldStats, List.filterMap_cons, hsos, hs]
    simp [List.min?, List.max?, setP, setWp_sos, hsos, hs, setWp_P, hPa, hPb]

theorem core_zeroZ (fs : FieldStats)
    (hz : ∀ t key inv, getZ fs t key inv = 0) (t : Team) :
    computeCoreForTeam fs t = { t with coreZ := some cxCoreZ, mibs := some 0 } := by
  simp [computeCoreForTeam, hz, cxCoreZ]

theorem resume_noP (fs : FieldStats) (hP : fs.P = none) (t : Team)
    (hmibs : t.mibs = some 0) (hbr : t.breadth = some 0) :
    computeResumeContextForTeam fs t =
      { t with resumeIndex := some 0, resumeR := some 0, resumeRTier := some "Average",
               mi_base := some 0 } := by
  cases hw : fs.wp <;>
    simp [computeResumeContextForTeam, hw, hP, computeMIBase, hmibs, hbr]

theorem computeProfileMarks_frame (fs : FieldStats) (t : Team) :
    ∃ M, computeProfileMarks fs t = { t with profileMarks := M } :=
  ⟨_, rfl⟩

theorem pipe_twin (fs : FieldStats) (hz : ∀ t key inv, getZ fs t key inv = 0)
    (hP : fs.P = none) (t : Team) :
    ∃ M, computeProfileMarks fs
        (computeResumeContextForTeam fs (computeBreadthForTeam (computeCoreForTeam fs t))) =
      { t with coreZ := some cxCoreZ, mibs := some 0,
               breadthEffHits := some 0, breadthShootHits := some 0,
               breadthPossHits := some 0, breadthTotalHits := some 0,
               breadth := some 0, breadthHits := some 0,
               resumeIndex := some 0, resumeR := some 0, resumeRTier := some "Average",
               mi_base := some 0, profileMarks := M } := by
  have h1 : computeBreadthForTeam (computeCoreForTeam fs t) =
      { t with coreZ := some cxCoreZ, mibs := some 0,
               breadthEffHits := some 0, breadthShootHits := some 0,
               breadthPossHits := some 0, breadthTotalHits := some 0,
               breadth := some 0, breadthHits := some 0 } := by
    rw [core_zeroZ fs hz]
    exact breadth_cx _ rfl
  have h2 : computeResumeContextForTeam fs (computeBreadthForTeam (computeCoreForTeam fs t)) =
      { t with coreZ := some cxCoreZ, mibs := some 0,
               breadthEffHits := some 0, breadthShootHits := some 0,
               breadthPossHits := some 0, breadthTotalHits := some 0,
               breadth := some 0, breadthHits := some 0,
               resumeIndex := some 0, resumeR := some 0, resumeRTier := some "Average",
               mi_base := some 0 } := by
    rw [h1]
    exact resume_noP fs hP _ rfl rfl
  obtain ⟨M, hM⟩ := computeProfileMarks_frame fs
    ({ t with coreZ := some cxCoreZ, mibs := some 0,
              breadthEffHits := some 0, breadthShootHits := some 0,
              breadthPossHits := some 0, breadthTotalHits := some 0,
              breadth := some 0, breadthHits := some 0,
              resumeIndex := some 0, resumeR := some 0, resumeRTier := some "Average",
              mi_base := some 0 })
  refine ⟨M, ?_⟩
  rw [h2]
  exact hM

theorem markBonus_bounds (t : Team) :
    0 ≤ getVarianceMarkBonus t ∧ getVarianceMarkBonus t ≤ 2 / 10 := by
  simp only [getVarianceMarkBonus]
  split_ifs <;> norm_num

theorem int3PT_zeroZ (fs : FieldStats) (hz : ∀ t key inv, getZ fs t key inv = 0)
    (a b : Team) (acc : IntAcc) : interaction3PT fs a b acc = acc := by
  simp [interaction3PT, hz, halfMirrored_zero, _applyToB]

theorem intFT_zeroZ (fs : FieldStats) (hz : ∀ t key inv, getZ fs t key inv = 0)
    (a b : Team) (acc : IntAcc) : interactionFT fs a b acc = acc := by
  simp [interactionFT, hz, halfMirrored_zero]

theorem intPaint_zeroZ (fs : FieldStats) (hz : ∀ t key inv, getZ fs t key inv = 0)
    (a b : Team) (acc : IntAcc) : interactionPaint fs a b acc = acc := by
  simp [interactionPaint, hz, halfMirrored_zero, _applyToB]

theorem intTO_zeroZ (fs : FieldStats) (hz : ∀ t key inv, getZ fs t key inv = 0)
    (a b : Team) (acc : IntAcc) : interactionTO fs a b acc = acc := by
  simp [interactionTO, hz, halfMirrored_zero]

theorem intGlass_zeroZ (fs : FieldStats) (hz : ∀ t key inv, getZ fs t key inv = 0)
    (a b : Team) (acc : IntAcc) : interactionGlass fs a b acc = acc := by
  simp [interactionGlass, hz, halfMirrored_zero, _applyToB]

theorem intResume_noP (fs : FieldStats) (hP : fs.P = none)
    (a b : Team) (acc : IntAcc) : interactionResume fs a b acc = acc := by
  cases hw : fs.wp <;> simp [interactionResume, hw, hP]

theorem intPhys_zeroZ (fs : FieldStats) (hz : ∀ t key inv, getZ fs t key inv = 0)
    (a b : Team) (acc : IntAcc) : interactionPhysicality fs a b acc = acc := by
  simp [interactionPhysicality, hz, halfMirrored_zero]

theorem intShotQ_zeroZ (fs : FieldStats) (hz : ∀ t key inv, getZ fs t key inv = 0)
    (a b : Team) (acc : IntAcc) : interactionShotQuality fs a b acc = acc := by
  simp [interactionShotQuality, hz, halfMirrored_zero]

theorem intVar_zeroZ (fs : FieldStats) (hz : ∀ t key inv, getZ fs t key inv = 0)
    (a b : Team) (acc : IntAcc) : interactionVariance fs a b acc = acc := by
  have hva : getVEI fs a - getOSI fs b = getVarianceMarkBonus a := by
    simp [getVEI, getOSI, getTurnoverFragility, hz]
  have hvb : getVEI fs b - getOSI fs a = getVarianceMarkBonus b := by
    simp [getVEI, getOSI, getTurnoverFragility, hz]
  have h0A : halfMirroredAdjust (getVEI fs a - getOSI fs b) = 0 := by
    rw [hva]
    exact halfMirrored_small (by
      rw [abs_of_nonneg (markBonus_bounds a).1]
      linarith [(markBonus_bounds a).2])
  have h0B : halfMirroredAdjust (getVEI fs b - getOSI fs a) = 0 := by
    rw [hvb]
    exact halfMirrored_small (by
      rw [abs_of_nonneg (markBonus_bounds b).1]
      linarith [(markBonus_bounds b).2])
  simp only [interactionVariance, h0A, h0B]
  split_ifs <;> rfl

theorem computeInteractions_twin (fs : FieldStats)
    (hz : ∀ t key inv, getZ fs t key inv = 0) (hP : fs.P = none)
    (a b : Team) : computeInteractions fs a b = emptyInt := by
  simp only [computeInteractions]
  rw [int3PT_zeroZ fs hz, intFT_zeroZ fs hz, intPaint_zeroZ fs hz, intTO_zeroZ fs hz,
    intGlass_zeroZ fs hz, intResume_noP fs hP, intPhys_zeroZ fs hz,
    intShotQ_zeroZ fs hz, intVar_zeroZ fs hz]

/-- C1 (amended): when the two entrants with identical raw values in every
field are the only loaded entrants, every field standard deviation is zero,
so every z-score and hence every category gap is zero, all nine interaction
categories resolve to a zero adjustment, both matchup scores coincide, the
differential is zero and the comparison reports the explicit tie outcome
Push. -/
theorem identical_pair_alone_push (na nb : String) (sd : Option ℤ)
    (m : Metric → Option ℚ) (w l sos : Option ℚ) (hne : na ≠ nb) :
    ∃ res,
      compareTeams (loadAndCompute [twinTeam na sd m w l sos, twinTeam nb sd m w l sos]).2
        (loadAndCompute [twinTeam na sd m w l sos, twinTeam nb sd m w l sos]).1
        none na nb = some res ∧
      res.interactions = emptyInt ∧
      (∀ tag, res.interactions.breakdown tag = 0) ∧
      res.miA = res.miB ∧ res.diff = 0 ∧ res.predicted = "Push" := by
  set ta : Team := twinTeam na sd m w l sos with hta
  set tb : Team := twinTeam nb sd m w l sos with htb
  have hm : tb.metrics = ta.metrics := rfl
  set fs : FieldStats := (computeFieldStats [ta, tb]).2 with hfs
  have hsd0 : ∀ key st, fs.stats key = some st → st.sd = 0 := by
    intro key st hst
    have he : fs.stats key =
        (ta.metrics key).map (fun v => ({ mean := v, sd := 0 } : FieldStat)) :=
      entry_twin ta tb hm key
    rcases hv : ta.metrics key with _ | v
    · rw [he, hv] at hst
      exact absurd hst (by simp)
    · rw [he, hv] at hst
      simp only [Option.map_some'] at hst
      exact congrArg FieldStat.sd (Option.some.inj hst).symm
  have hz : ∀ t key inv, getZ fs t key inv = 0 :=
    fun t key inv => getZ_sd_zero fs hsd0 t key inv
  have hP : fs.P = none := fieldStats_P_two ta tb rfl rfl rfl
  obtain ⟨u1, u2, hus, hn1, hn2⟩ := fieldStats_two ta tb
  obtain ⟨M1, hp1⟩ := pipe_twin fs hz hP u1
  obtain ⟨M2, hp2⟩ := pipe_twin fs hz hP u2
  set p1 : Team := { u1 with
    coreZ := some cxCoreZ
    mibs := some 0
    breadthEffHits := some 0
    breadthShootHits := some 0
    breadthPossHits := some 0
    breadthTotalHits := some 0
    breadth := some 0
    breadthHits := some 0
    resumeIndex := some 0
    resumeR := some 0
    resumeRTier := some "Average"
    mi_base := some 0
    profileMarks := M1 } with hp1def
  set p2 : Team := { u2 with
    coreZ := some cxCoreZ
    mibs := some 0
    breadthEffHits := some 0
    breadthShootHits := some 0
    breadthPossHits := some 0
    breadthTotalHits := some 0
    breadth := some 0
    breadthHits := some 0
    resumeIndex := some 0
    resumeR := some 0
    resumeRTier := some "Average"
    mi_base := some 0
    profileMarks := M2 } with hp2def
  have hp1name : p1.name = na := hn1.trans rfl
  have hp2name : p2.name = nb := hn2.trans rfl
  have hu1name : u1.name = na := hn1.trans rfl
  have hu2name : u2.name = nb := hn2.trans rfl
  have hL1 : (loadAndCompute [ta, tb]).1 = [p1, p2] := by
    show computeAllTeamLayers (computeFieldStats [ta, tb]).2 (computeFieldStats [ta, tb]).1 =
      [p1, p2]
    rw [hus]
    simp only [computeAllTeamLayers, List.map_cons, List.map_nil]
    rw [hp1, hp2]
  have hL2 : (loadAndCompute [ta, tb]).2 = fs := rfl
  have hfind1 : getTeamByName [p1, p2] na = some p1 := by
    unfold getTeamByName
    apply List.find?_cons_of_pos
    simp [hu1name]
  have hfind2 : getTeamByName [p1, p2] nb = some p2 := by
    unfold getTeamByName
    rw [List.find?_cons_of_neg]
    · apply List.find?_cons_of_pos
      simp [hu2name]
    · simp [hu1name]
      exact hne
  have hint : computeInteractions fs p1 p2 = emptyInt :=
    computeInteractions_twin fs hz hP p1 p2
  have hfin : ∀ t : Team, t.mi_base = some 0 → (computeFinalMI t (some 0)).2 = 0 := by
    intro t hmb
    simp [computeFinalMI, hmb]
  rw [hL2, hL1]
  unfold compareTeams
  rw [hfind1, hfind2]
  refine ⟨_, rfl, ?_, ?_, ?_, ?_, ?_⟩
  · show computeInteractions fs p1 p2 = emptyInt
    exact hint
  · intro tag
    show (computeInteractions fs p1 p2).breakdown tag = 0
    rw [hint]
    rfl
  · show (computeFinalMI p1 (some (computeInteractions fs p1 p2).a)).2 =
      (computeFinalMI p2 (some (computeInteractions fs p1 p2).b)).2
    rw [hint]
    show (computeFinalMI p1 (some 0)).2 = (computeFinalMI p2 (some 0)).2
    rw [hfin p1 rfl, hfin p2 rfl]
  · show (computeFinalMI p1 (some (computeInteractions fs p1 p2).a)).2 -
      (computeFinalMI p2 (some (computeInteractions fs p1 p2).b)).2 = 0
    rw [hint]
    show (computeFinalMI p1 (some 0)).2 - (computeFinalMI p2 (some 0)).2 = 0
    rw [hfin p1 rfl, hfin p2 rfl]
    norm_num
  · show (if _ > _ then _ else if _ < _ then _ else "Push") = "Push"
    rw [hint]
    show (if (computeFinalMI p1 (some 0)).2 - (computeFinalMI p2 (some 0)).2 > 0 then
        (computeFinalMI p1 (some 0)).1.name
      else if (computeFinalMI p1 (some 0)).2 - (computeFinalMI p2 (some 0)).2 < 0 then
        (computeFinalMI p2 (some 0)).1.name
      else "Push") = "Push"
    rw [hfin p1 rfl, hfin p2 rfl]
    norm_num

/-- Witness: the amended C1 theorem applied to a concrete identical pair
that forms the whole loaded field. -/
theorem identical_pair_alone_push_witness :
    ("A" : String) ≠ "B" ∧
    ∃ res,
      compareTeams
        (loadAndCompute [twinTeam "A" none (fun _ => none) none none none,
          twinTeam "B" none (fun _ => none) none none none]).2
        (loadAndCompute [twinTeam "A" none (fun _ => none) none none none,
          twinTeam "B" none (fun _ => none) none none none]).1
        none "A" "B" = some res ∧
      res.interactions = emptyInt ∧
      (∀ tag, res.interactions.breakdown tag = 0) ∧
      res.miA = res.miB ∧ res.diff = 0 ∧ res.predicted = "Push" :=
  ⟨by decide,
    identical_pair_alone_push "A" "B" none (fun _ => none) none none none (by decide)⟩

end Madness
